import Mathlib

set_option maxRecDepth 80000

/-!
Verification of the room-scraper repository (two source adapters `scrapeOlx`
and `scrapeOtodom`, a shared keyword classifier, and the aggregation/sort in
`main`).  The effectful browser layer (page rendering, DOM queries) is
abstracted as oracles: a crawl run consumes a function from page number to the
raw per-card strings that the DOM queries of the source return, and the string
processing the source performs on those raw strings (truthiness defaults,
regex digit scans, substring checks, URL resolution, dedup, filters, sort) is
embedded as executable Lean functions.
-/

namespace RoomScraper

/-! ## JS string primitives used by the source -/

/-- JS whitespace class membership as used by the source's regexes and trim
(ASCII whitespace; the source only ever meets these). -/
def isJsSpace (c : Char) : Bool :=
  c == ' ' || c == '\t' || c == '\n' || c == '\r'

/-- JS `String.prototype.includes`: substring test. -/
def strContains (s pat : String) : Bool :=
  decide (pat.toList <:+: s.toList)

/-- JS `String.prototype.startsWith`. -/
def strStartsWith (s pat : String) : Bool :=
  decide (pat.toList <+: s.toList)

/-- JS `String.prototype.trim` (over the modelled whitespace class). -/
def jsTrim (s : String) : String :=
  String.mk (((s.toList.dropWhile isJsSpace).reverse.dropWhile isJsSpace).reverse)

/-- JS `String.prototype.toLowerCase` (ASCII case folding). -/
def jsToLower (s : String) : String :=
  String.mk (s.toList.map Char.toLower)

/-- First component of JS `s.split(sep)`: the prefix of `l` up to the first
occurrence of `sep` (the whole list when `sep` does not occur). -/
def splitFirst (sep : List Char) : List Char → List Char
  | [] => []
  | c :: rest =>
    if sep.isPrefixOf (c :: rest) then [] else c :: splitFirst sep rest

/-- Value of a digit character list, as JS `parseInt(digits, 10)`. -/
def digitsToNat (l : List Char) : Nat :=
  l.foldl (fun n c => n * 10 + (c.toNat - 48)) 0

/-- First maximal run of decimal digits in `l` (JS `s.match(/(\d+)/)`). -/
def firstDigitRun : List Char → Option (List Char)
  | [] => none
  | c :: rest =>
    if c.isDigit then some ((c :: rest).takeWhile Char.isDigit)
    else firstDigitRun rest

/-- JS `x || undefined` on an optional string: empty string collapses to
absent. -/
def jsOrUndefined : Option String → Option String
  | none => none
  | some s => if s == "" then none else some s

/-! ## Data model (src/types.ts) -/

/-- The `Room` interface of `src/types.ts`: the normalized Listing. -/
structure Room where
  title : String
  price : Option Int
  currency : String
  location : String
  url : String
  source : String
  roomType : Option String
  area : Option Int
  imageUrl : Option String
deriving DecidableEq

/-- The `SearchOptions` interface of `src/types.ts`.  All fields optional;
`roomType` is a `String` at runtime because the CLI casts the raw argument
unchecked. -/
structure SearchOptions where
  maxPrice : Option Int := none
  roomType : Option String := none
  district : Option String := none
  pages : Option Int := none
deriving DecidableEq

/-- JS truthiness of an optional number (`undefined` and `0` are falsy). -/
def truthyInt : Option Int → Bool
  | none => false
  | some i => i != 0

/-- JS truthiness of an optional string (`undefined` and `""` are falsy). -/
def truthyStr : Option String → Bool
  | none => false
  | some s => s != ""

/-- `getRoomTypeKeywords` (identical in both scraper files): switch on the
room type tag, defaulting to the empty list. -/
def getRoomTypeKeywords (roomType : String) : List String :=
  if roomType = "single" then ["jednoosobowy", "1-osobowy", "single", "dla jednej"]
  else if roomType = "shared" then ["współlokator", "współdziel", "shared", "2-osobowy", "dwuosobowy"]
  else if roomType = "studio" then ["kawalerka", "studio", "garsoniera"]
  else if roomType = "apartment" then ["mieszkanie", "apartment", "flat"]
  else []

/-! ## OLX extraction (src/scrapers/olx.ts, page.evaluate body) -/

/-- Raw per-card DOM query results consumed by the OLX extraction function:
`none` models a missing element or a `null` attribute/text. -/
structure OlxCard where
  hasLink : Bool
  hrefAttr : Option String
  titleText : Option String
  priceText : Option String
  locationText : Option String
  imgSrc : Option String
deriving DecidableEq

/-- `titleEl?.textContent?.trim() || "Room listing"`. -/
def olxTitleOf : Option String → String
  | none => "Room listing"
  | some t => if jsTrim t = "" then "Room listing" else jsTrim t

/-- `locationEl?.textContent?.split(" - ")[0]?.trim() || "Warszawa"`. -/
def olxLocationOf : Option String → String
  | none => "Warszawa"
  | some t =>
    let first := String.mk (splitFirst " - ".toList t.toList)
    if jsTrim first = "" then "Warszawa" else jsTrim first

/-- `priceText.replace(/\s/g, "").match(/(\d+)/)` then `parseInt`. -/
def olxParsePrice (priceText : String) : Option Int :=
  (firstDigitRun (priceText.toList.filter (fun c => !isJsSpace c))).map
    (fun run => (digitsToNat run : Int))

/-- Resolution of a listing href against the OLX origin:
`href.startsWith("http") ? href : "https://www.olx.pl" + href`. -/
def olxFullUrl (href : String) : String :=
  if strStartsWith href "http" then href else "https://www.olx.pl" ++ href

/-- One OLX card's extraction result (the body of `cards.forEach`): `none`
when the card is skipped (no link element, or the href matches neither
`"/d/"` nor `"/oferta/"`). -/
def olxCardRoom (card : OlxCard) : Option Room :=
  if !card.hasLink then none
  else
    let href := card.hrefAttr.getD ""
    if !(strContains href "/d/" || strContains href "/oferta/") then none
    else some
      { title := olxTitleOf card.titleText
        price := olxParsePrice (card.priceText.getD "")
        currency := "PLN"
        location := olxLocationOf card.locationText
        url := olxFullUrl href
        source := "olx"
        roomType := none
        area := none
        imageUrl := jsOrUndefined card.imgSrc }

/-- One step of the in-page accumulation: a produced record whose url is
already present is skipped (`if (listings.some((l) => l.url === fullUrl)) return`). -/
def olxPageStep (listings : List Room) (card : OlxCard) : List Room :=
  match olxCardRoom card with
  | none => listings
  | some room =>
    if listings.any (fun l => l.url == room.url) then listings
    else listings ++ [room]

/-- The full per-page OLX extraction (`page.evaluate` result). -/
def extractOlxPage (cards : List OlxCard) : List Room :=
  cards.foldl olxPageStep []

/-! ## Otodom extraction (src/scrapers/otodom.ts, page.evaluate body) -/

/-- Raw per-card DOM query results consumed by the Otodom extraction
function. -/
structure OtodomCard where
  hasLink : Bool
  hrefAttr : Option String
  titleText : Option String
  areaText : Option String
  containerText : Option String
  imgSrc : Option String
deriving DecidableEq

/-- Matcher for the price regex `/(\d[\d\s]*)\s*zł/i` on the container text:
at the leftmost digit position whose maximal digit/whitespace run is followed
by "zł" (case-insensitively), the captured group is that run.  Positions are
tried left to right exactly as the regex engine scans. -/
def findPriceRun : List Char → Option (List Char)
  | [] => none
  | c :: rest =>
    if c.isDigit then
      let run := (c :: rest).takeWhile (fun ch => ch.isDigit || isJsSpace ch)
      let after := (c :: rest).dropWhile (fun ch => ch.isDigit || isJsSpace ch)
      if (match after with
          | a :: b :: _ => (a == 'z' || a == 'Z') && (b == 'ł' || b == 'Ł')
          | _ => false) then some run
      else findPriceRun rest
    else findPriceRun rest

/-- `allContainerText.match(/(\d[\d\s]*)\s*zł/i)` then
`parseInt(match[1].replace(/\s/g, ""), 10)`. -/
def otodomParsePrice (text : String) : Option Int :=
  (findPriceRun text.toList).map
    (fun run => (digitsToNat (run.filter Char.isDigit) : Int))

/-- `let title = titleEl?.textContent?.trim() || ""; if (!title) title = "Room in Warsaw"`. -/
def otodomTitleOf : Option String → String
  | none => "Room in Warsaw"
  | some t => if jsTrim t = "" then "Room in Warsaw" else jsTrim t

/-- Character class `[\wąćęłńóśźżĄĆĘŁŃÓŚŹŻ-]` of the two location regexes. -/
def isLocWordChar (c : Char) : Bool :=
  c.isAlphanum || c == '_' || c == '-' ||
    ['ą', 'ć', 'ę', 'ł', 'ń', 'ó', 'ś', 'ź', 'ż',
     'Ą', 'Ć', 'Ę', 'Ł', 'Ń', 'Ó', 'Ś', 'Ź', 'Ż'].contains c

/-- Case-insensitive literal prefix test for the (ASCII, lowercase) pattern
fragment, as the regex flag `i` behaves on ASCII letters. -/
def ciHasPrefix (pat l : List Char) : Bool :=
  pat.isPrefixOf ((l.take pat.length).map Char.toLower)

/-- Matcher for `/Warszawa,\s*([\wąćęłńóśźżĄĆĘŁŃÓŚŹŻ-]+)/i`: scanning left to
right for the literal, then skipping whitespace, then a non-empty run of the
word class; the engine advances one position on failure. -/
def warsawCommaMatch : List Char → Option (List Char)
  | [] => none
  | c :: rest =>
    if ciHasPrefix "warszawa,".toList (c :: rest) then
      let run := (((c :: rest).drop 9).dropWhile isJsSpace).takeWhile isLocWordChar
      if run.isEmpty then warsawCommaMatch rest else some run
    else warsawCommaMatch rest

/-- Matcher for `/Warszawa\s+([\wąćęłńóśźżĄĆĘŁŃÓŚŹŻ-]+)/i` (at least one
whitespace character after the literal). -/
def warsawSpaceMatch : List Char → Option (List Char)
  | [] => none
  | c :: rest =>
    if ciHasPrefix "warszawa".toList (c :: rest) then
      let after := (c :: rest).drop 8
      if (after.takeWhile isJsSpace).isEmpty then warsawSpaceMatch rest
      else
        let run := (after.dropWhile isJsSpace).takeWhile isLocWordChar
        if run.isEmpty then warsawSpaceMatch rest else some run
    else warsawSpaceMatch rest

/-- The guard on a location match:
`match && match[1] && !match[1].includes("zł") && !match[1].includes("Cena")`. -/
def locMatchOk (m : List Char) : Bool :=
  !m.isEmpty && !strContains (String.mk m) "zł" && !strContains (String.mk m) "Cena"

/-- Second iteration of the location loop (the space pattern), reached when
the comma pattern did not produce a guarded match. -/
def otodomLocSecond (text : List Char) : String :=
  match warsawSpaceMatch text with
  | some m => if locMatchOk m then "Warszawa, " ++ String.mk m else "Warszawa"
  | none => "Warszawa"

/-- The location loop of the Otodom extractor: try the comma pattern, then the
space pattern; the first match passing the guard yields
`"Warszawa, " + match[1]`, otherwise the default `"Warszawa"` stands. -/
def otodomLocationOf (text : String) : String :=
  match warsawCommaMatch text.toList with
  | some m => if locMatchOk m then "Warszawa, " ++ String.mk m else otodomLocSecond text.toList
  | none => otodomLocSecond text.toList

/-- Resolution of a listing href against the Otodom origin. -/
def otodomFullUrl (href : String) : String :=
  if strStartsWith href "http" then href else "https://www.otodom.pl" ++ href

/-- One Otodom card's extraction result: `none` when skipped (no link
element, or href lacks `"/oferta/"`). -/
def otodomCardRoom (card : OtodomCard) : Option Room :=
  if !card.hasLink then none
  else
    let href := card.hrefAttr.getD ""
    if !strContains href "/oferta/" then none
    else
      let allContainerText := card.containerText.getD ""
      some
        { title := otodomTitleOf card.titleText
          price := otodomParsePrice allContainerText
          currency := "PLN"
          location := otodomLocationOf allContainerText
          url := otodomFullUrl href
          source := "otodom"
          roomType := none
          area := (firstDigitRun ((card.areaText.getD "").toList)).map
            (fun run => (digitsToNat run : Int))
          imageUrl := jsOrUndefined card.imgSrc }

/-- In-page accumulation step for Otodom
(`if (listings.some((l) => l.url === fullUrl)) return`). -/
def otodomPageStep (listings : List Room) (card : OtodomCard) : List Room :=
  match otodomCardRoom card with
  | none => listings
  | some room =>
    if listings.any (fun l => l.url == room.url) then listings
    else listings ++ [room]

/-- The full per-page Otodom extraction. -/
def extractOtodomPage (cards : List OtodomCard) : List Room :=
  cards.foldl otodomPageStep []

/-! ## Crawl engine (the page loop of both scrapers) -/

/-- One rendered OLX page, as the extraction and the `hasNextPage` check see
it. -/
structure OlxPageData where
  cards : List OlxCard
  hasNext : Bool

/-- One rendered Otodom page. -/
structure OtodomPageData where
  cards : List OtodomCard
  hasNext : Bool

/-- `Math.min(options.pages || 5, MAX_PAGES)` with `MAX_PAGES = 10`. -/
def pagesToScrape (pages : Option Int) : Int :=
  min (match pages with
       | none => 5
       | some p => if p = 0 then 5 else p) 10

/-- One step of the cross-page accumulation
(`if (!allRooms.some((r) => r.url === room.url)) allRooms.push(room)`). -/
def addStep (acc : List Room) (room : Room) : List Room :=
  if acc.any (fun r => r.url == room.url) then acc else acc ++ [room]

/-- Cross-page accumulation (`for (const room of rooms) ...`). -/
def addUniqueByUrl (acc rooms : List Room) : List Room :=
  rooms.foldl addStep acc

/-- Result of one crawl run.  `rooms` is the source's `allRooms`; `fetches`
counts executed loop iterations (one `page.goto` each) and `raw` is the
concatenation of all per-page extraction results — both are instrumentation
for stating the budget and dedup properties, not part of the source state. -/
structure CrawlOut where
  rooms : List Room
  fetches : Nat
  raw : List Room
deriving DecidableEq

/-- The OLX page loop `for (pageNum = 1; pageNum <= pagesToScrape; pageNum++)`,
with the remaining iteration count as structural fuel (`k = 0` is the loop
condition `pageNum > pagesToScrape` failing).  After accumulating a page the
loop stops early when `!hasNextPage`. -/
def olxCrawlLoop (fetch : Int → OlxPageData) :
    Nat → Int → List Room → Nat → List Room → CrawlOut
  | 0, _, acc, cnt, raw => ⟨acc, cnt, raw⟩
  | k + 1, pageNum, acc, cnt, raw =>
    let pg := fetch pageNum
    let rooms := extractOlxPage pg.cards
    let acc2 := addUniqueByUrl acc rooms
    if pg.hasNext then
      olxCrawlLoop fetch k (pageNum + 1) acc2 (cnt + 1) (raw ++ rooms)
    else ⟨acc2, cnt + 1, raw ++ rooms⟩

/-- The Otodom page loop; it additionally stops early when the page yielded
zero extracted records (`if (!hasNextPage || rooms.length === 0) break`). -/
def otodomCrawlLoop (fetch : Int → OtodomPageData) :
    Nat → Int → List Room → Nat → List Room → CrawlOut
  | 0, _, acc, cnt, raw => ⟨acc, cnt, raw⟩
  | k + 1, pageNum, acc, cnt, raw =>
    let pg := fetch pageNum
    let rooms := extractOtodomPage pg.cards
    let acc2 := addUniqueByUrl acc rooms
    if pg.hasNext && !rooms.isEmpty then
      otodomCrawlLoop fetch k (pageNum + 1) acc2 (cnt + 1) (raw ++ rooms)
    else ⟨acc2, cnt + 1, raw ++ rooms⟩

/-- A full OLX crawl run (before the post-loop filters). -/
def olxCrawlRun (fetch : Int → OlxPageData) (options : SearchOptions) : CrawlOut :=
  olxCrawlLoop fetch (pagesToScrape options.pages).toNat 1 [] 0 []

/-- A full Otodom crawl run (before the post-loop filters). -/
def otodomCrawlRun (fetch : Int → OtodomPageData) (options : SearchOptions) : CrawlOut :=
  otodomCrawlLoop fetch (pagesToScrape options.pages).toNat 1 [] 0 []

/-! ## Post-loop filters (identical in both scrapers) -/

/-- The room-type predicate:
`keywords.some((kw) => room.title.toLowerCase().includes(kw))`. -/
def roomMatchesType (keywords : List String) (room : Room) : Bool :=
  keywords.any (fun kw => strContains (jsToLower room.title) kw)

/-- `if (options.roomType) filteredRooms = allRooms.filter(...)`. -/
def filterByRoomType (options : SearchOptions) (allRooms : List Room) : List Room :=
  if truthyStr options.roomType then
    allRooms.filter (roomMatchesType (getRoomTypeKeywords (options.roomType.getD "")))
  else allRooms

/-- `if (options.maxPrice) filteredRooms = filteredRooms.filter((room) => room.price === null || room.price <= options.maxPrice!)`. -/
def filterByMaxPrice (options : SearchOptions) (rooms : List Room) : List Room :=
  if truthyInt options.maxPrice then
    rooms.filter (fun room =>
      match room.price with
      | none => true
      | some q => decide (q ≤ options.maxPrice.getD 0))
  else rooms

/-- The post-loop filter block of both scrapers. -/
def applyFilters (options : SearchOptions) (allRooms : List Room) : List Room :=
  filterByMaxPrice options (filterByRoomType options allRooms)

/-- `scrapeOlx`: crawl, then filter. -/
def scrapeOlxModel (fetch : Int → OlxPageData) (options : SearchOptions) : List Room :=
  applyFilters options (olxCrawlRun fetch options).rooms

/-- `scrapeOtodom`: crawl, then filter. -/
def scrapeOtodomModel (fetch : Int → OtodomPageData) (options : SearchOptions) : List Room :=
  applyFilters options (otodomCrawlRun fetch options).rooms

/-! ## Page URL construction -/

/-- Decimal digit characters. -/
def decDigits : List Char :=
  ['0', '1', '2', '3', '4', '5', '6', '7', '8', '9']

/-- Digit character of `d` (for `d < 10`). -/
def digitCh (d : Nat) : Char :=
  decDigits.getD d '0'

/-- Decimal digit characters of a natural number. -/
def natToDecChars (n : Nat) : List Char :=
  if n < 10 then [digitCh n] else natToDecChars (n / 10) ++ [digitCh (n % 10)]
decreasing_by exact Nat.div_lt_self (by omega) (by omega)

/-- JS template-literal rendering of an integral number. -/
def jsIntToString (i : Int) : String :=
  if i < 0 then "-" ++ String.mk (natToDecChars i.natAbs)
  else String.mk (natToDecChars i.natAbs)

/-- `params.join("&")`. -/
def joinAmp : List String → String
  | [] => ""
  | [s] => s
  | s :: rest => s ++ "&" ++ joinAmp rest

/-- The OLX page URL construction (lines 22–34 of the OLX scraper): base
listing URL, a price filter parameter when `options.maxPrice` is truthy, and
a page parameter when `pageNum > 1`. -/
def buildOlxUrl (options : SearchOptions) (pageNum : Int) : String :=
  let base := "https://www.olx.pl/nieruchomosci/stancje-pokoje/warszawa/"
  let params : List String :=
    (if truthyInt options.maxPrice then
      ["search%5Bfilter_float_price%3Ato%5D=" ++ jsIntToString (options.maxPrice.getD 0)]
    else [])
    ++ (if 1 < pageNum then ["page=" ++ jsIntToString pageNum] else [])
  if params.isEmpty then base else base ++ "?" ++ joinAmp params

/-- The Otodom page URL construction (lines 22–35 of otodom.ts). -/
def buildOtodomUrl (options : SearchOptions) (pageNum : Int) : String :=
  let base := "https://www.otodom.pl/pl/wyniki/wynajem/pokoj/mazowieckie/warszawa/warszawa/warszawa"
  let params : List String :=
    (if truthyInt options.maxPrice then
      ["priceMax=" ++ jsIntToString (options.maxPrice.getD 0)]
    else [])
    ++ (if 1 < pageNum then ["page=" ++ jsIntToString pageNum] else [])
  if params.isEmpty then base else base ++ "?" ++ joinAmp params

/-! ## Aggregation sort (src/index.ts, main)

`rooms.sort(...)` with the comparator of lines 94–98.  `Array.prototype.sort`
in Bun's engine JavaScriptCore is a stable merge sort whose merge evaluates
`comparator(right, left)` and takes the element from the right run only when
that result is negative, otherwise from the left run.  With the source
comparator this merge decision coincides with a stable merge under the key
"price, with null as plus infinity" (the null/null answer 1 means "take
left", preserving input order), so the shape of the merge tree — JSC's
bottom-up passes versus the top-down recursion below — does not affect the
output; the model uses the top-down recursion with the engine's merge
decision. -/

/-- The comparator of `main`:
`if (a.price === null) return 1; if (b.price === null) return -1; return a.price - b.price`. -/
def roomCompare (a b : Room) : Int :=
  match a.price with
  | none => 1
  | some pa =>
    match b.price with
    | none => -1
    | some pb => pa - pb

/-- The engine's stable merge of two runs under the source comparator: take
from the right run iff `comparator(right, left) < 0`. -/
def jsMerge : List Room → List Room → List Room
  | [], r => r
  | l, [] => l
  | a :: l, b :: r =>
    if roomCompare b a < 0 then b :: jsMerge (a :: l) r
    else a :: jsMerge l (b :: r)
termination_by l r => l.length + r.length

/-- Merge sort with the source comparator and the engine's merge decision:
the model of `rooms.sort((a, b) => ...)` in `main`. -/
def jsSortRooms (l : List Room) : List Room :=
  if l.length ≤ 1 then l
  else jsMerge (jsSortRooms (l.take (l.length / 2))) (jsSortRooms (l.drop (l.length / 2)))
termination_by l.length
decreasing_by
  · simp only [List.length_take]
    omega
  · simp only [List.length_drop]
    omega

/-! ## Sort lemmas -/

theorem jsMerge_nil_left (r : List Room) : jsMerge [] r = r := by
  cases r with
  | nil => rw [jsMerge]
  | cons a t => rw [jsMerge]

theorem jsMerge_nil_right (l : List Room) : jsMerge l [] = l := by
  cases l with
  | nil => rw [jsMerge]
  | cons a t =>
    rw [jsMerge]
    intro h
    exact absurd h (by simp)

theorem jsMerge_cons_cons (a b : Room) (l r : List Room) :
    jsMerge (a :: l) (b :: r) =
      if roomCompare b a < 0 then b :: jsMerge (a :: l) r else a :: jsMerge l (b :: r) := by
  rw [jsMerge]

theorem jsSortRooms_short (l : List Room) (h : l.length ≤ 1) : jsSortRooms l = l := by
  rw [jsSortRooms]
  simp [h]

/-- The order the comparator of `main` establishes between two rooms `a`
before `b`: a `null` price is never followed by a present price, and present
prices are non-decreasing. -/
def ROrd (a b : Room) : Prop :=
  (a.price = none → b.price = none) ∧
  ∀ pa pb, a.price = some pa → b.price = some pb → pa ≤ pb

theorem rord_of_lt {a b : Room} (h : roomCompare b a < 0) : ROrd b a := by
  unfold roomCompare at h
  cases hb : b.price with
  | none => simp [hb] at h
  | some pb =>
    cases ha : a.price with
    | none =>
      refine ⟨fun h0 => ?_, fun pb' pa' _ ha' => ?_⟩
      · rw [hb] at h0; cases h0
      · rw [ha] at ha'; cases ha'
    | some pa =>
      simp only [hb, ha] at h
      refine ⟨fun h0 => ?_, fun pb' pa' hb' ha' => ?_⟩
      · rw [hb] at h0; cases h0
      · rw [hb] at hb'; rw [ha] at ha'
        cases hb'; cases ha'
        omega

theorem rord_of_not_lt {a b : Room} (h : ¬ roomCompare b a < 0) : ROrd a b := by
  unfold roomCompare at h
  cases hb : b.price with
  | none =>
    refine ⟨fun _ => hb, fun pa' pb' _ hb' => ?_⟩
    rw [hb] at hb'; cases hb'
  | some pb =>
    cases ha : a.price with
    | none =>
      simp only [hb, ha] at h
      omega
    | some pa =>
      simp only [hb, ha] at h
      refine ⟨fun h0 => ?_, fun pa' pb' ha' hb' => ?_⟩
      · rw [ha] at h0; cases h0
      · rw [ha] at ha'; rw [hb] at hb'
        cases ha'; cases hb'
        omega

theorem rord_trans {a b c : Room} (hab : ROrd a b) (hbc : ROrd b c) : ROrd a c := by
  refine ⟨fun ha => hbc.1 (hab.1 ha), fun pa pc ha hc => ?_⟩
  cases hb : b.price with
  | none => rw [hbc.1 hb] at hc; cases hc
  | some pb => exact le_trans (hab.2 pa pb ha hb) (hbc.2 pb pc hb hc)

theorem price_some_of_lt {a b : Room} (h : roomCompare b a < 0) :
    ∃ pb, b.price = some pb := by
  unfold roomCompare at h
  cases hb : b.price with
  | none => simp [hb] at h
  | some pb => exact ⟨pb, rfl⟩

theorem mem_jsMerge (x : Room) : ∀ l r : List Room, x ∈ jsMerge l r ↔ x ∈ l ∨ x ∈ r := by
  intro l r
  induction l, r using jsMerge.induct with
  | case1 r => simp [jsMerge_nil_left]
  | case2 l _ => simp [jsMerge_nil_right]
  | case3 a l b r hlt ih =>
    rw [jsMerge_cons_cons, if_pos hlt]
    simp only [List.mem_cons, ih]
    tauto
  | case4 a l b r hnlt ih =>
    rw [jsMerge_cons_cons, if_neg hnlt]
    simp only [List.mem_cons, ih]
    tauto

theorem pairwise_jsMerge :
    ∀ l r : List Room, l.Pairwise ROrd → r.Pairwise ROrd → (jsMerge l r).Pairwise ROrd := by
  intro l r
  induction l, r using jsMerge.induct with
  | case1 r => intro _ h; rw [jsMerge_nil_left]; exact h
  | case2 l _ => intro h _; rw [jsMerge_nil_right]; exact h
  | case3 a l b r hlt ih =>
    intro hl hr
    rw [jsMerge_cons_cons, if_pos hlt]
    rw [List.pairwise_cons] at hr ⊢
    refine ⟨fun y hy => ?_, ih hl hr.2⟩
    rw [mem_jsMerge] at hy
    have hba : ROrd b a := rord_of_lt hlt
    rcases hy with hy | hy
    · rcases List.mem_cons.mp hy with rfl | hy
      · exact hba
      · exact rord_trans hba ((List.pairwise_cons.mp hl).1 y hy)
    · exact hr.1 y hy
  | case4 a l b r hnlt ih =>
    intro hl hr
    rw [jsMerge_cons_cons, if_neg hnlt]
    rw [List.pairwise_cons] at hl ⊢
    refine ⟨fun y hy => ?_, ih hl.2 hr⟩
    rw [mem_jsMerge] at hy
    have hab : ROrd a b := rord_of_not_lt hnlt
    rcases hy with hy | hy
    · exact hl.1 y hy
    · rcases List.mem_cons.mp hy with rfl | hy
      · exact hab
      · exact rord_trans hab ((List.pairwise_cons.mp hr).1 y hy)

theorem perm_jsMerge : ∀ l r : List Room, (jsMerge l r).Perm (l ++ r) := by
  intro l r
  induction l, r using jsMerge.induct with
  | case1 r => rw [jsMerge_nil_left]; simp
  | case2 l _ => rw [jsMerge_nil_right]; simp
  | case3 a l b r hlt ih =>
    rw [jsMerge_cons_cons, if_pos hlt]
    exact (ih.cons b).trans List.perm_middle.symm
  | case4 a l b r hnlt ih =>
    rw [jsMerge_cons_cons, if_neg hnlt]
    exact ih.cons a

/-- Whether a room's price equals the given present price. -/
def priceEq (c : Int) (r : Room) : Bool :=
  r.price == some c

/-- Whether a room's price is absent. -/
def priceNone (r : Room) : Bool :=
  r.price == none

theorem filter_jsMerge (c : Int) :
    ∀ l r : List Room, l.Pairwise ROrd →
      (jsMerge l r).filter (priceEq c) = l.filter (priceEq c) ++ r.filter (priceEq c) := by
  intro l r
  induction l, r using jsMerge.induct with
  | case1 r => intro _; rw [jsMerge_nil_left]; simp
  | case2 l _ => intro _; rw [jsMerge_nil_right]; simp
  | case3 a l b r hlt ih =>
    intro hl
    rw [jsMerge_cons_cons, if_pos hlt]
    rw [List.filter_cons (x := b), ih hl]
    cases h : priceEq c b with
    | false => simp [List.filter_cons (x := b), h]
    | true =>
      have hbc : b.price = some c := by
        simpa [priceEq] using h
      have hnil : (a :: l).filter (priceEq c) = [] := by
        rw [List.filter_eq_nil_iff]
        intro x hx
        have hlt' := hlt
        unfold roomCompare at hlt'
        cases ha : a.price with
        | none =>
          rcases List.mem_cons.mp hx with rfl | hx
          · simp [priceEq, ha]
          · have hx0 : x.price = none := ((List.pairwise_cons.mp hl).1 x hx).1 ha
            simp [priceEq, hx0]
        | some pa =>
          simp only [hbc, ha] at hlt'
          rcases List.mem_cons.mp hx with rfl | hx
          · simp only [priceEq, ha, beq_iff_eq, Option.some.injEq]
            omega
          · cases hx0 : x.price with
            | none => simp [priceEq, hx0]
            | some px =>
              have := ((List.pairwise_cons.mp hl).1 x hx).2 pa px ha hx0
              simp only [priceEq, hx0, beq_iff_eq, Option.some.injEq]
              omega
      rw [hnil]
      simp [List.filter_cons (x := b), h]
  | case4 a l b r hnlt ih =>
    intro hl
    rw [jsMerge_cons_cons, if_neg hnlt]
    rw [List.filter_cons, List.filter_cons, ih hl.of_cons]
    cases h : priceEq c a <;> simp

theorem filterNull_jsMerge :
    ∀ l r : List Room,
      (jsMerge l r).filter priceNone = l.filter priceNone ++ r.filter priceNone := by
  intro l r
  induction l, r using jsMerge.induct with
  | case1 r => rw [jsMerge_nil_left]; simp
  | case2 l _ => rw [jsMerge_nil_right]; simp
  | case3 a l b r hlt ih =>
    rw [jsMerge_cons_cons, if_pos hlt]
    obtain ⟨pb, hpb⟩ := price_some_of_lt hlt
    have hb : priceNone b = false := by simp [priceNone, hpb]
    simp [List.filter_cons, hb, ih]
  | case4 a l b r hnlt ih =>
    rw [jsMerge_cons_cons, if_neg hnlt]
    rw [List.filter_cons, List.filter_cons, ih]
    cases h : priceNone a <;> simp

theorem jsMerge_eq_append :
    ∀ l r : List Room, (∀ a ∈ l, ∀ b ∈ r, ROrd a b) → jsMerge l r = l ++ r := by
  intro l
  induction l with
  | nil =>
    intro r _
    rw [jsMerge_nil_left, List.nil_append]
  | cons a l2 ih =>
    intro r hcross
    cases r with
    | nil => rw [jsMerge_nil_right, List.append_nil]
    | cons b r2 =>
      have hab : ROrd a b := hcross a (List.mem_cons_self _ _) b (List.mem_cons_self _ _)
      have hnlt : ¬ roomCompare b a < 0 := by
        intro hlt
        unfold roomCompare at hlt
        cases hb : b.price with
        | none => simp [hb] at hlt
        | some pb =>
          cases ha : a.price with
          | none =>
            have hbn := hab.1 ha
            rw [hb] at hbn
            cases hbn
          | some pa =>
            simp only [hb, ha] at hlt
            have := hab.2 pa pb ha hb
            omega
      rw [jsMerge_cons_cons, if_neg hnlt, List.cons_append]
      exact congrArg (a :: ·)
        (ih (b :: r2) (fun x hx y hy => hcross x (List.mem_cons_of_mem _ hx) y hy))

theorem pairwise_jsSortRooms (l : List Room) : (jsSortRooms l).Pairwise ROrd := by
  induction l using jsSortRooms.induct with
  | case1 l h =>
    rw [jsSortRooms_short l h]
    cases l with
    | nil => exact List.Pairwise.nil
    | cons a t =>
      have : t = [] := by
        simp only [List.length_cons] at h
        exact List.length_eq_zero.mp (by omega)
      subst this
      simp
  | case2 l h ih1 ih2 =>
    rw [jsSortRooms, if_neg h]
    exact pairwise_jsMerge _ _ ih1 ih2

theorem perm_jsSortRooms (l : List Room) : (jsSortRooms l).Perm l := by
  induction l using jsSortRooms.induct with
  | case1 l h => rw [jsSortRooms_short l h]
  | case2 l h ih1 ih2 =>
    rw [jsSortRooms, if_neg h]
    have happ := ih1.append ih2
    rw [List.take_append_drop] at happ
    exact (perm_jsMerge _ _).trans happ

theorem filter_jsSortRooms (c : Int) (l : List Room) :
    (jsSortRooms l).filter (priceEq c) = l.filter (priceEq c) := by
  induction l using jsSortRooms.induct with
  | case1 l h => rw [jsSortRooms_short l h]
  | case2 l h ih1 ih2 =>
    rw [jsSortRooms, if_neg h]
    rw [filter_jsMerge c _ _ (pairwise_jsSortRooms _), ih1, ih2, ← List.filter_append,
      List.take_append_drop]

theorem filterNull_jsSortRooms (l : List Room) :
    (jsSortRooms l).filter priceNone = l.filter priceNone := by
  induction l using jsSortRooms.induct with
  | case1 l h => rw [jsSortRooms_short l h]
  | case2 l h ih1 ih2 =>
    rw [jsSortRooms, if_neg h]
    rw [filterNull_jsMerge, ih1, ih2, ← List.filter_append, List.take_append_drop]

theorem jsSortRooms_of_pairwise :
    ∀ l : List Room, l.Pairwise ROrd → jsSortRooms l = l := by
  intro l
  induction l using jsSortRooms.induct with
  | case1 l h =>
    intro _
    rw [jsSortRooms_short l h]
  | case2 l h ih1 ih2 =>
    intro hp
    have hsplit : (l.take (l.length / 2) ++ l.drop (l.length / 2)).Pairwise ROrd := by
      rw [List.take_append_drop]
      exact hp
    obtain ⟨h1, h2, hcross⟩ := List.pairwise_append.mp hsplit
    rw [jsSortRooms, if_neg h, ih1 h1, ih2 h2, jsMerge_eq_append _ _ hcross,
      List.take_append_drop]

/-! ## Deduplication lemmas -/

/-- Specification-side first-occurrence deduplication keyed by `url`: a record
is kept iff its url is neither in `seen` nor on an earlier kept record. -/
def dedupByUrl (seen : List String) : List Room → List Room
  | [] => []
  | r :: rest =>
    if seen.any (fun v => v == r.url) then dedupByUrl seen rest
    else r :: dedupByUrl (r.url :: seen) rest

theorem any_beq_eq_decide_mem (s : List String) (u : String) :
    (s.any fun v => v == u) = decide (u ∈ s) := by
  induction s with
  | nil => simp
  | cons a t ih =>
    simp only [List.any_cons, ih, List.mem_cons]
    by_cases h : u = a
    · subst h; simp
    · simp [beq_iff_eq, h, Ne.symm h]

theorem any_url_eq (acc : List Room) (u : String) :
    (acc.any fun r => r.url == u) = ((acc.map Room.url).any fun v => v == u) := by
  induction acc with
  | nil => simp
  | cons a t ih => simp [List.any_cons, ih]

theorem dedupByUrl_congr :
    ∀ (l : List Room) (s1 s2 : List String), (∀ u, u ∈ s1 ↔ u ∈ s2) →
      dedupByUrl s1 l = dedupByUrl s2 l := by
  intro l
  induction l with
  | nil => intro s1 s2 _; rfl
  | cons r rest ih =>
    intro s1 s2 hiff
    unfold dedupByUrl
    rw [any_beq_eq_decide_mem, any_beq_eq_decide_mem, decide_eq_decide.mpr (hiff r.url)]
    cases hd : decide (r.url ∈ s2) with
    | true =>
      simp only [if_pos rfl]
      exact ih s1 s2 hiff
    | false =>
      simp only [Bool.false_eq_true, if_false]
      exact congrArg (r :: ·)
        (ih (r.url :: s1) (r.url :: s2) (fun u => by simp [List.mem_cons, hiff u]))


theorem dedupByUrl_nil (seen : List String) : dedupByUrl seen [] = [] := rfl

theorem dedupByUrl_cons_unfold (seen : List String) (r : Room) (rest : List Room) :
    dedupByUrl seen (r :: rest) =
      if (seen.any fun v => v == r.url) = true then dedupByUrl seen rest
      else r :: dedupByUrl (r.url :: seen) rest := rfl

theorem dedupByUrl_cons_old {seen : List String} {r : Room} (rest : List Room)
    (h : (seen.any fun v => v == r.url) = true) :
    dedupByUrl seen (r :: rest) = dedupByUrl seen rest := by
  rw [dedupByUrl_cons_unfold, if_pos h]

theorem dedupByUrl_cons_new {seen : List String} {r : Room} (rest : List Room)
    (h : (seen.any fun v => v == r.url) = false) :
    dedupByUrl seen (r :: rest) = r :: dedupByUrl (r.url :: seen) rest := by
  rw [dedupByUrl_cons_unfold, if_neg (by simp [h])]

theorem addUniqueByUrl_cons (acc : List Room) (r : Room) (rest : List Room) :
    addUniqueByUrl acc (r :: rest) = addUniqueByUrl (addStep acc r) rest := rfl

theorem addUniqueByUrl_eq :
    ∀ (rooms acc : List Room),
      addUniqueByUrl acc rooms = acc ++ dedupByUrl (acc.map Room.url) rooms := by
  intro rooms
  induction rooms with
  | nil => intro acc; simp [addUniqueByUrl, dedupByUrl]
  | cons r rest ih =>
    intro acc
    rw [addUniqueByUrl_cons]
    cases hc : (acc.any fun x => x.url == r.url) with
    | true =>
      have hmc : ((acc.map Room.url).any fun v => v == r.url) = true := by
        rw [← any_url_eq]; exact hc
      rw [dedupByUrl_cons_old rest hmc]
      have hstep : addStep acc r = acc := by simp [addStep, hc]
      rw [hstep, ih acc]
    | false =>
      have hmc : ((acc.map Room.url).any fun v => v == r.url) = false := by
        rw [← any_url_eq]; exact hc
      rw [dedupByUrl_cons_new rest hmc]
      have hstep : addStep acc r = acc ++ [r] := by simp [addStep, hc]
      rw [hstep, ih (acc ++ [r]), List.append_assoc]
      refine congrArg (acc ++ ·) ?_
      have hcg : dedupByUrl ((acc ++ [r]).map Room.url) rest =
          dedupByUrl (r.url :: acc.map Room.url) rest := by
        refine dedupByUrl_congr rest _ _ (fun u => ?_)
        simp only [List.map_append, List.map_cons, List.map_nil, List.mem_append,
          List.mem_cons, List.mem_singleton, List.not_mem_nil, or_false]
        tauto
      rw [hcg]
      rfl

theorem dedupByUrl_append :
    ∀ (a : List Room) (seen : List String) (b : List Room),
      dedupByUrl seen (a ++ b) =
        dedupByUrl seen a ++ dedupByUrl ((dedupByUrl seen a).map Room.url ++ seen) b := by
  intro a
  induction a with
  | nil =>
    intro seen b
    rw [List.nil_append, dedupByUrl_nil, List.nil_append]
    exact (dedupByUrl_congr b _ _ (fun u => by simp)).symm
  | cons r rest ih =>
    intro seen b
    rw [List.cons_append]
    cases hc : (seen.any fun v => v == r.url) with
    | true =>
      rw [dedupByUrl_cons_old (rest ++ b) hc, dedupByUrl_cons_old rest hc]
      exact ih seen b
    | false =>
      rw [dedupByUrl_cons_new (rest ++ b) hc, dedupByUrl_cons_new rest hc, ih (r.url :: seen) b]
      simp only [List.map_cons, List.cons_append]
      refine congrArg (r :: ·) (congrArg (dedupByUrl (r.url :: seen) rest ++ ·) ?_)
      refine dedupByUrl_congr b _ _ (fun u => ?_)
      simp only [List.mem_append, List.mem_cons]
      tauto

theorem dedupByUrl_nodup :
    ∀ (l : List Room) (seen : List String),
      ((dedupByUrl seen l).map Room.url).Nodup ∧
        ∀ u, u ∈ (dedupByUrl seen l).map Room.url → u ∉ seen := by
  intro l
  induction l with
  | nil => intro seen; simp [dedupByUrl]
  | cons r rest ih =>
    intro seen
    cases hc : (seen.any fun v => v == r.url) with
    | true =>
      rw [dedupByUrl_cons_old rest hc]
      exact ih seen
    | false =>
      rw [dedupByUrl_cons_new rest hc]
      have hmem : r.url ∉ seen := by
        rw [any_beq_eq_decide_mem] at hc
        simpa using hc
      obtain ⟨hnd, hout⟩ := ih (r.url :: seen)
      refine ⟨?_, ?_⟩
      · simp only [List.map_cons, List.nodup_cons]
        exact ⟨fun hin => (hout r.url hin) (List.mem_cons_self _ _), hnd⟩
      · intro u hu
        simp only [List.map_cons, List.mem_cons] at hu
        rcases hu with rfl | hu
        · exact hmem
        · exact fun hus => (hout u hu) (List.mem_cons_of_mem _ hus)

/-! ## Crawl loop step lemmas -/

theorem olxCrawlLoop_zero (fetch : Int → OlxPageData) (pageNum : Int)
    (acc : List Room) (cnt : Nat) (raw : List Room) :
    olxCrawlLoop fetch 0 pageNum acc cnt raw = ⟨acc, cnt, raw⟩ := rfl

theorem olxCrawlLoop_succ_next (fetch : Int → OlxPageData) {pageNum : Int}
    (k : Nat) (acc : List Room) (cnt : Nat) (raw : List Room)
    (h : (fetch pageNum).hasNext = true) :
    olxCrawlLoop fetch (k + 1) pageNum acc cnt raw =
      olxCrawlLoop fetch k (pageNum + 1)
        (addUniqueByUrl acc (extractOlxPage (fetch pageNum).cards)) (cnt + 1)
        (raw ++ extractOlxPage (fetch pageNum).cards) := by
  rw [olxCrawlLoop]
  simp only [h, if_true]

theorem olxCrawlLoop_succ_stop (fetch : Int → OlxPageData) {pageNum : Int}
    (k : Nat) (acc : List Room) (cnt : Nat) (raw : List Room)
    (h : (fetch pageNum).hasNext = false) :
    olxCrawlLoop fetch (k + 1) pageNum acc cnt raw =
      ⟨addUniqueByUrl acc (extractOlxPage (fetch pageNum).cards), cnt + 1,
        raw ++ extractOlxPage (fetch pageNum).cards⟩ := by
  rw [olxCrawlLoop]
  simp only [h, Bool.false_eq_true, if_false]

theorem otodomCrawlLoop_zero (fetch : Int → OtodomPageData) (pageNum : Int)
    (acc : List Room) (cnt : Nat) (raw : List Room) :
    otodomCrawlLoop fetch 0 pageNum acc cnt raw = ⟨acc, cnt, raw⟩ := rfl

theorem otodomCrawlLoop_succ_next (fetch : Int → OtodomPageData) {pageNum : Int}
    (k : Nat) (acc : List Room) (cnt : Nat) (raw : List Room)
    (h : ((fetch pageNum).hasNext && !(extractOtodomPage (fetch pageNum).cards).isEmpty) = true) :
    otodomCrawlLoop fetch (k + 1) pageNum acc cnt raw =
      otodomCrawlLoop fetch k (pageNum + 1)
        (addUniqueByUrl acc (extractOtodomPage (fetch pageNum).cards)) (cnt + 1)
        (raw ++ extractOtodomPage (fetch pageNum).cards) := by
  rw [otodomCrawlLoop]
  simp only [h, if_true]

theorem otodomCrawlLoop_succ_stop (fetch : Int → OtodomPageData) {pageNum : Int}
    (k : Nat) (acc : List Room) (cnt : Nat) (raw : List Room)
    (h : ((fetch pageNum).hasNext && !(extractOtodomPage (fetch pageNum).cards).isEmpty) = false) :
    otodomCrawlLoop fetch (k + 1) pageNum acc cnt raw =
      ⟨addUniqueByUrl acc (extractOtodomPage (fetch pageNum).cards), cnt + 1,
        raw ++ extractOtodomPage (fetch pageNum).cards⟩ := by
  rw [otodomCrawlLoop]
  simp only [h, Bool.false_eq_true, if_false]

theorem olxCrawlLoop_dedup (fetch : Int → OlxPageData) :
    ∀ (k : Nat) (pageNum : Int) (acc : List Room) (cnt : Nat) (raw : List Room),
      acc = dedupByUrl [] raw →
      (olxCrawlLoop fetch k pageNum acc cnt raw).rooms =
        dedupByUrl [] (olxCrawlLoop fetch k pageNum acc cnt raw).raw := by
  intro k
  induction k with
  | zero => intro pageNum acc cnt raw h; exact h
  | succ k ih =>
    intro pageNum acc cnt raw h
    have hstep : addUniqueByUrl acc (extractOlxPage (fetch pageNum).cards) =
        dedupByUrl [] (raw ++ extractOlxPage (fetch pageNum).cards) := by
      rw [addUniqueByUrl_eq, dedupByUrl_append, ← h]
      exact congrArg (acc ++ ·) (dedupByUrl_congr _ _ _ (fun u => by simp))
    cases hnext : (fetch pageNum).hasNext with
    | true =>
      rw [olxCrawlLoop_succ_next fetch k acc cnt raw hnext]
      exact ih _ _ _ _ hstep
    | false =>
      rw [olxCrawlLoop_succ_stop fetch k acc cnt raw hnext]
      exact hstep

theorem otodomCrawlLoop_dedup (fetch : Int → OtodomPageData) :
    ∀ (k : Nat) (pageNum : Int) (acc : List Room) (cnt : Nat) (raw : List Room),
      acc = dedupByUrl [] raw →
      (otodomCrawlLoop fetch k pageNum acc cnt raw).rooms =
        dedupByUrl [] (otodomCrawlLoop fetch k pageNum acc cnt raw).raw := by
  intro k
  induction k with
  | zero => intro pageNum acc cnt raw h; exact h
  | succ k ih =>
    intro pageNum acc cnt raw h
    have hstep : addUniqueByUrl acc (extractOtodomPage (fetch pageNum).cards) =
        dedupByUrl [] (raw ++ extractOtodomPage (fetch pageNum).cards) := by
      rw [addUniqueByUrl_eq, dedupByUrl_append, ← h]
      exact congrArg (acc ++ ·) (dedupByUrl_congr _ _ _ (fun u => by simp))
    cases hcond : ((fetch pageNum).hasNext && !(extractOtodomPage (fetch pageNum).cards).isEmpty) with
    | true =>
      rw [otodomCrawlLoop_succ_next fetch k acc cnt raw hcond]
      exact ih _ _ _ _ hstep
    | false =>
      rw [otodomCrawlLoop_succ_stop fetch k acc cnt raw hcond]
      exact hstep

theorem olxCrawlLoop_fetches_le (fetch : Int → OlxPageData) :
    ∀ (k : Nat) (pageNum : Int) (acc : List Room) (cnt : Nat) (raw : List Room),
      (olxCrawlLoop fetch k pageNum acc cnt raw).fetches ≤ cnt + k := by
  intro k
  induction k with
  | zero =>
    intro pageNum acc cnt raw
    rw [olxCrawlLoop_zero]
    show cnt ≤ cnt + 0
    omega
  | succ k ih =>
    intro pageNum acc cnt raw
    cases hnext : (fetch pageNum).hasNext with
    | true =>
      rw [olxCrawlLoop_succ_next fetch k acc cnt raw hnext]
      have := ih (pageNum + 1) (addUniqueByUrl acc (extractOlxPage (fetch pageNum).cards))
        (cnt + 1) (raw ++ extractOlxPage (fetch pageNum).cards)
      omega
    | false =>
      rw [olxCrawlLoop_succ_stop fetch k acc cnt raw hnext]
      show cnt + 1 ≤ cnt + (k + 1)
      omega

theorem olxCrawlLoop_fetches_ge (fetch : Int → OlxPageData) :
    ∀ (k : Nat) (pageNum : Int) (acc : List Room) (cnt : Nat) (raw : List Room),
      1 ≤ k → cnt + 1 ≤ (olxCrawlLoop fetch k pageNum acc cnt raw).fetches := by
  intro k
  induction k with
  | zero => intro _ _ _ _ h; omega
  | succ k ih =>
    intro pageNum acc cnt raw _
    cases hnext : (fetch pageNum).hasNext with
    | true =>
      rw [olxCrawlLoop_succ_next fetch k acc cnt raw hnext]
      rcases Nat.eq_zero_or_pos k with rfl | hk
      · rw [olxCrawlLoop_zero]
      · have := ih (pageNum + 1) (addUniqueByUrl acc (extractOlxPage (fetch pageNum).cards))
          (cnt + 1) (raw ++ extractOlxPage (fetch pageNum).cards) hk
        omega
    | false =>
      rw [olxCrawlLoop_succ_stop fetch k acc cnt raw hnext]

theorem otodomCrawlLoop_fetches_le (fetch : Int → OtodomPageData) :
    ∀ (k : Nat) (pageNum : Int) (acc : List Room) (cnt : Nat) (raw : List Room),
      (otodomCrawlLoop fetch k pageNum acc cnt raw).fetches ≤ cnt + k := by
  intro k
  induction k with
  | zero =>
    intro pageNum acc cnt raw
    rw [otodomCrawlLoop_zero]
    show cnt ≤ cnt + 0
    omega
  | succ k ih =>
    intro pageNum acc cnt raw
    cases hcond : ((fetch pageNum).hasNext && !(extractOtodomPage (fetch pageNum).cards).isEmpty) with
    | true =>
      rw [otodomCrawlLoop_succ_next fetch k acc cnt raw hcond]
      have := ih (pageNum + 1) (addUniqueByUrl acc (extractOtodomPage (fetch pageNum).cards))
        (cnt + 1) (raw ++ extractOtodomPage (fetch pageNum).cards)
      omega
    | false =>
      rw [otodomCrawlLoop_succ_stop fetch k acc cnt raw hcond]
      show cnt + 1 ≤ cnt + (k + 1)
      omega

theorem otodomCrawlLoop_fetches_ge (fetch : Int → OtodomPageData) :
    ∀ (k : Nat) (pageNum : Int) (acc : List Room) (cnt : Nat) (raw : List Room),
      1 ≤ k → cnt + 1 ≤ (otodomCrawlLoop fetch k pageNum acc cnt raw).fetches := by
  intro k
  induction k with
  | zero => intro _ _ _ _ h; omega
  | succ k ih =>
    intro pageNum acc cnt raw _
    cases hcond : ((fetch pageNum).hasNext && !(extractOtodomPage (fetch pageNum).cards).isEmpty) with
    | true =>
      rw [otodomCrawlLoop_succ_next fetch k acc cnt raw hcond]
      rcases Nat.eq_zero_or_pos k with rfl | hk
      · rw [otodomCrawlLoop_zero]
      · have := ih (pageNum + 1) (addUniqueByUrl acc (extractOtodomPage (fetch pageNum).cards))
          (cnt + 1) (raw ++ extractOtodomPage (fetch pageNum).cards) hk
        omega
    | false =>
      rw [otodomCrawlLoop_succ_stop fetch k acc cnt raw hcond]

/-! ## Membership and inversion lemmas -/

theorem string_append_ne_empty_left (s t : String) (h : s ≠ "") : s ++ t ≠ "" := by
  intro he
  apply h
  have hd : (s ++ t).data = ("" : String).data := congrArg String.data he
  rw [String.data_append] at hd
  have hs : s.data = [] := (List.append_eq_nil.mp hd).1
  cases s with
  | mk d =>
    simp only at hs
    rw [hs]

theorem olxTitleOf_ne_empty (t : Option String) : olxTitleOf t ≠ "" := by
  cases t with
  | none => decide
  | some s =>
    show (if jsTrim s = "" then "Room listing" else jsTrim s) ≠ ""
    by_cases h : jsTrim s = ""
    · rw [if_pos h]
      decide
    · rw [if_neg h]
      exact h

theorem olxLocationOf_ne_empty (t : Option String) : olxLocationOf t ≠ "" := by
  cases t with
  | none => decide
  | some s =>
    show (if jsTrim (String.mk (splitFirst " - ".toList s.toList)) = "" then "Warszawa"
      else jsTrim (String.mk (splitFirst " - ".toList s.toList))) ≠ ""
    by_cases h : jsTrim (String.mk (splitFirst " - ".toList s.toList)) = ""
    · rw [if_pos h]
      decide
    · rw [if_neg h]
      exact h

theorem otodomTitleOf_ne_empty (t : Option String) : otodomTitleOf t ≠ "" := by
  cases t with
  | none => decide
  | some s =>
    show (if jsTrim s = "" then "Room in Warsaw" else jsTrim s) ≠ ""
    by_cases h : jsTrim s = ""
    · rw [if_pos h]
      decide
    · rw [if_neg h]
      exact h

theorem otodomLocSecond_ne_empty (text : List Char) : otodomLocSecond text ≠ "" := by
  unfold otodomLocSecond
  cases warsawSpaceMatch text with
  | none => decide
  | some m =>
    show (if locMatchOk m = true then "Warszawa, " ++ String.mk m else "Warszawa") ≠ ""
    by_cases h : locMatchOk m = true
    · rw [if_pos h]
      exact string_append_ne_empty_left _ _ (by decide)
    · rw [if_neg h]
      decide

theorem otodomLocationOf_ne_empty (text : String) : otodomLocationOf text ≠ "" := by
  unfold otodomLocationOf
  cases warsawCommaMatch text.toList with
  | none => exact otodomLocSecond_ne_empty _
  | some m =>
    show (if locMatchOk m = true then "Warszawa, " ++ String.mk m
      else otodomLocSecond text.toList) ≠ ""
    by_cases h : locMatchOk m = true
    · rw [if_pos h]
      exact string_append_ne_empty_left _ _ (by decide)
    · rw [if_neg h]
      exact otodomLocSecond_ne_empty _

theorem olxCardRoom_inv {card : OlxCard} {r : Room} (h : olxCardRoom card = some r) :
    r = { title := olxTitleOf card.titleText
          price := olxParsePrice (card.priceText.getD "")
          currency := "PLN"
          location := olxLocationOf card.locationText
          url := olxFullUrl (card.hrefAttr.getD "")
          source := "olx"
          roomType := none
          area := none
          imageUrl := jsOrUndefined card.imgSrc } := by
  unfold olxCardRoom at h
  split at h
  · cases h
  · dsimp only at h
    split at h
    · cases h
    · injection h with h2
      exact h2.symm

theorem otodomCardRoom_inv {card : OtodomCard} {r : Room} (h : otodomCardRoom card = some r) :
    r = { title := otodomTitleOf card.titleText
          price := otodomParsePrice (card.containerText.getD "")
          currency := "PLN"
          location := otodomLocationOf (card.containerText.getD "")
          url := otodomFullUrl (card.hrefAttr.getD "")
          source := "otodom"
          roomType := none
          area := (firstDigitRun ((card.areaText.getD "").toList)).map
            (fun run => (digitsToNat run : Int))
          imageUrl := jsOrUndefined card.imgSrc } := by
  unfold otodomCardRoom at h
  split at h
  · cases h
  · dsimp only at h
    split at h
    · cases h
    · injection h with h2
      exact h2.symm

theorem mem_olxPageStep {listings : List Room} {card : OlxCard} {x : Room}
    (h : x ∈ olxPageStep listings card) : x ∈ listings ∨ olxCardRoom card = some x := by
  unfold olxPageStep at h
  split at h
  · exact Or.inl h
  · split at h
    · exact Or.inl h
    · rcases List.mem_append.mp h with hx | hx
      · exact Or.inl hx
      · rcases List.mem_singleton.mp hx with rfl
        rename_i room heq _
        exact Or.inr heq

theorem mem_foldl_olxPageStep :
    ∀ (cards : List OlxCard) (acc : List Room) (x : Room),
      x ∈ cards.foldl olxPageStep acc →
        x ∈ acc ∨ ∃ c ∈ cards, olxCardRoom c = some x := by
  intro cards
  induction cards with
  | nil => intro acc x h; exact Or.inl h
  | cons c rest ih =>
    intro acc x h
    rw [List.foldl_cons] at h
    rcases ih (olxPageStep acc c) x h with hx | ⟨c2, hc2, heq⟩
    · rcases mem_olxPageStep hx with hx2 | heq
      · exact Or.inl hx2
      · exact Or.inr ⟨c, List.mem_cons_self _ _, heq⟩
    · exact Or.inr ⟨c2, List.mem_cons_of_mem _ hc2, heq⟩

theorem mem_extractOlxPage {cards : List OlxCard} {x : Room}
    (h : x ∈ extractOlxPage cards) : ∃ c ∈ cards, olxCardRoom c = some x := by
  rcases mem_foldl_olxPageStep cards [] x h with hx | hx
  · cases hx
  · exact hx

theorem mem_otodomPageStep {listings : List Room} {card : OtodomCard} {x : Room}
    (h : x ∈ otodomPageStep listings card) : x ∈ listings ∨ otodomCardRoom card = some x := by
  unfold otodomPageStep at h
  split at h
  · exact Or.inl h
  · split at h
    · exact Or.inl h
    · rcases List.mem_append.mp h with hx | hx
      · exact Or.inl hx
      · rcases List.mem_singleton.mp hx with rfl
        rename_i room heq _
        exact Or.inr heq

theorem mem_foldl_otodomPageStep :
    ∀ (cards : List OtodomCard) (acc : List Room) (x : Room),
      x ∈ cards.foldl otodomPageStep acc →
        x ∈ acc ∨ ∃ c ∈ cards, otodomCardRoom c = some x := by
  intro cards
  induction cards with
  | nil => intro acc x h; exact Or.inl h
  | cons c rest ih =>
    intro acc x h
    rw [List.foldl_cons] at h
    rcases ih (otodomPageStep acc c) x h with hx | ⟨c2, hc2, heq⟩
    · rcases mem_otodomPageStep hx with hx2 | heq
      · exact Or.inl hx2
      · exact Or.inr ⟨c, List.mem_cons_self _ _, heq⟩
    · exact Or.inr ⟨c2, List.mem_cons_of_mem _ hc2, heq⟩

theorem mem_extractOtodomPage {cards : List OtodomCard} {x : Room}
    (h : x ∈ extractOtodomPage cards) : ∃ c ∈ cards, otodomCardRoom c = some x := by
  rcases mem_foldl_otodomPageStep cards [] x h with hx | hx
  · cases hx
  · exact hx

theorem mem_addStep {acc : List Room} {room x : Room} (h : x ∈ addStep acc room) :
    x ∈ acc ∨ x = room := by
  unfold addStep at h
  split at h
  · exact Or.inl h
  · rcases List.mem_append.mp h with hx | hx
    · exact Or.inl hx
    · exact Or.inr (List.mem_singleton.mp hx)

theorem mem_addUniqueByUrl :
    ∀ (rooms acc : List Room) (x : Room),
      x ∈ addUniqueByUrl acc rooms → x ∈ acc ∨ x ∈ rooms := by
  intro rooms
  induction rooms with
  | nil => intro acc x h; exact Or.inl h
  | cons r rest ih =>
    intro acc x h
    rw [addUniqueByUrl_cons] at h
    rcases ih (addStep acc r) x h with hx | hx
    · rcases mem_addStep hx with hx2 | rfl
      · exact Or.inl hx2
      · exact Or.inr (List.mem_cons_self _ _)
    · exact Or.inr (List.mem_cons_of_mem _ hx)

theorem mem_olxCrawlLoop (fetch : Int → OlxPageData) :
    ∀ (k : Nat) (pageNum : Int) (acc : List Room) (cnt : Nat) (raw : List Room) (x : Room),
      x ∈ (olxCrawlLoop fetch k pageNum acc cnt raw).rooms →
        x ∈ acc ∨ ∃ n : Int, x ∈ extractOlxPage (fetch n).cards := by
  intro k
  induction k with
  | zero =>
    intro pageNum acc cnt raw x h
    rw [olxCrawlLoop_zero] at h
    exact Or.inl h
  | succ k ih =>
    intro pageNum acc cnt raw x h
    cases hnext : (fetch pageNum).hasNext with
    | true =>
      rw [olxCrawlLoop_succ_next fetch k acc cnt raw hnext] at h
      rcases ih _ _ _ _ x h with hx | hx
      · rcases mem_addUniqueByUrl _ _ _ hx with hx2 | hx2
        · exact Or.inl hx2
        · exact Or.inr ⟨pageNum, hx2⟩
      · exact Or.inr hx
    | false =>
      rw [olxCrawlLoop_succ_stop fetch k acc cnt raw hnext] at h
      rcases mem_addUniqueByUrl _ _ _ h with hx | hx
      · exact Or.inl hx
      · exact Or.inr ⟨pageNum, hx⟩

theorem mem_otodomCrawlLoop (fetch : Int → OtodomPageData) :
    ∀ (k : Nat) (pageNum : Int) (acc : List Room) (cnt : Nat) (raw : List Room) (x : Room),
      x ∈ (otodomCrawlLoop fetch k pageNum acc cnt raw).rooms →
        x ∈ acc ∨ ∃ n : Int, x ∈ extractOtodomPage (fetch n).cards := by
  intro k
  induction k with
  | zero =>
    intro pageNum acc cnt raw x h
    rw [otodomCrawlLoop_zero] at h
    exact Or.inl h
  | succ k ih =>
    intro pageNum acc cnt raw x h
    cases hcond : ((fetch pageNum).hasNext && !(extractOtodomPage (fetch pageNum).cards).isEmpty) with
    | true =>
      rw [otodomCrawlLoop_succ_next fetch k acc cnt raw hcond] at h
      rcases ih _ _ _ _ x h with hx | hx
      · rcases mem_addUniqueByUrl _ _ _ hx with hx2 | hx2
        · exact Or.inl hx2
        · exact Or.inr ⟨pageNum, hx2⟩
      · exact Or.inr hx
    | false =>
      rw [otodomCrawlLoop_succ_stop fetch k acc cnt raw hcond] at h
      rcases mem_addUniqueByUrl _ _ _ h with hx | hx
      · exact Or.inl hx
      · exact Or.inr ⟨pageNum, hx⟩

/-! ## Filter lemmas -/

theorem filterByRoomType_sublist (options : SearchOptions) (l : List Room) :
    (filterByRoomType options l).Sublist l := by
  unfold filterByRoomType
  split
  · exact List.filter_sublist l
  · exact List.Sublist.refl l

theorem filterByMaxPrice_sublist (options : SearchOptions) (l : List Room) :
    (filterByMaxPrice options l).Sublist l := by
  unfold filterByMaxPrice
  split
  · exact List.filter_sublist l
  · exact List.Sublist.refl l

theorem applyFilters_sublist (options : SearchOptions) (l : List Room) :
    (applyFilters options l).Sublist l :=
  (filterByMaxPrice_sublist options _).trans (filterByRoomType_sublist options l)

theorem mem_applyFilters {options : SearchOptions} {l : List Room} {x : Room}
    (h : x ∈ applyFilters options l) : x ∈ l :=
  (applyFilters_sublist options l).subset h

theorem mem_scrapeOlxModel {fetch : Int → OlxPageData} {options : SearchOptions} {x : Room}
    (h : x ∈ scrapeOlxModel fetch options) :
    ∃ (n : Int) (c : OlxCard), c ∈ (fetch n).cards ∧ olxCardRoom c = some x := by
  have h2 := mem_applyFilters h
  rcases mem_olxCrawlLoop fetch _ _ _ _ _ x h2 with hx | ⟨n, hx⟩
  · cases hx
  · obtain ⟨c, hc, heq⟩ := mem_extractOlxPage hx
    exact ⟨n, c, hc, heq⟩

theorem mem_scrapeOtodomModel {fetch : Int → OtodomPageData} {options : SearchOptions} {x : Room}
    (h : x ∈ scrapeOtodomModel fetch options) :
    ∃ (n : Int) (c : OtodomCard), c ∈ (fetch n).cards ∧ otodomCardRoom c = some x := by
  have h2 := mem_applyFilters h
  rcases mem_otodomCrawlLoop fetch _ _ _ _ _ x h2 with hx | ⟨n, hx⟩
  · cases hx
  · obtain ⟨c, hc, heq⟩ := mem_extractOtodomPage hx
    exact ⟨n, c, hc, heq⟩


/-! ## URL construction lemmas -/

theorem strToList_append (a b : String) : (a ++ b).toList = a.toList ++ b.toList :=
  String.data_append a b

theorem strContains_true_iff (s pat : String) :
    strContains s pat = true ↔ pat.toList <:+: s.toList := by
  unfold strContains
  exact decide_eq_true_iff

theorem strContains_middle (x pat y : String) :
    strContains (x ++ pat ++ y) pat = true := by
  unfold strContains
  apply decide_eq_true
  refine ⟨x.toList, y.toList, ?_⟩
  rw [strToList_append, strToList_append]

theorem strContains_false_of_char {s pat : String} (c : Char)
    (hc : c ∈ pat.toList) (hs : c ∉ s.toList) : strContains s pat = false := by
  unfold strContains
  exact decide_eq_false (fun hinf => hs (hinf.sublist.subset hc))

theorem digitCh_mem (d : Nat) : digitCh d ∈ decDigits := by
  unfold digitCh
  rcases Nat.lt_or_ge d 10 with h | h
  · interval_cases d <;> decide
  · rw [List.getD_eq_default]
    · decide
    · simpa [decDigits] using h

theorem mem_natToDecChars (n : Nat) : ∀ c ∈ natToDecChars n, c ∈ decDigits := by
  induction n using natToDecChars.induct with
  | case1 n h =>
    rw [natToDecChars, if_pos h]
    intro c hc
    rcases List.mem_singleton.mp hc with rfl
    exact digitCh_mem n
  | case2 n h ih =>
    rw [natToDecChars, if_neg h]
    intro c hc
    rcases List.mem_append.mp hc with hc | hc
    · exact ih c hc
    · rcases List.mem_singleton.mp hc with rfl
      exact digitCh_mem (n % 10)

theorem mem_jsIntToString (i : Int) :
    ∀ c ∈ (jsIntToString i).toList, c = '-' ∨ c ∈ decDigits := by
  unfold jsIntToString
  split
  · intro c hc
    rw [strToList_append] at hc
    rcases List.mem_append.mp hc with hc | hc
    · exact Or.inl (by simpa using hc)
    · exact Or.inr (mem_natToDecChars _ c hc)
  · intro c hc
    exact Or.inr (mem_natToDecChars _ c hc)

theorem buildOlxUrl_cases (options : SearchOptions) (pageNum : Int) :
    buildOlxUrl options pageNum =
      if truthyInt options.maxPrice then
        (if 1 < pageNum then
          "https://www.olx.pl/nieruchomosci/stancje-pokoje/warszawa/" ++ "?" ++
            ("search%5Bfilter_float_price%3Ato%5D=" ++ jsIntToString (options.maxPrice.getD 0) ++
              ("&" ++ ("page=" ++ jsIntToString pageNum)))
        else
          "https://www.olx.pl/nieruchomosci/stancje-pokoje/warszawa/" ++ "?" ++
            ("search%5Bfilter_float_price%3Ato%5D=" ++ jsIntToString (options.maxPrice.getD 0)))
      else
        (if 1 < pageNum then
          "https://www.olx.pl/nieruchomosci/stancje-pokoje/warszawa/" ++ "?" ++
            ("page=" ++ jsIntToString pageNum)
        else "https://www.olx.pl/nieruchomosci/stancje-pokoje/warszawa/") := by
  unfold buildOlxUrl
  by_cases hp : truthyInt options.maxPrice <;> by_cases hn : 1 < pageNum <;>
    simp [hp, hn, joinAmp, String.append_assoc]

theorem buildOtodomUrl_cases (options : SearchOptions) (pageNum : Int) :
    buildOtodomUrl options pageNum =
      if truthyInt options.maxPrice then
        (if 1 < pageNum then
          "https://www.otodom.pl/pl/wyniki/wynajem/pokoj/mazowieckie/warszawa/warszawa/warszawa" ++ "?" ++
            ("priceMax=" ++ jsIntToString (options.maxPrice.getD 0) ++
              ("&" ++ ("page=" ++ jsIntToString pageNum)))
        else
          "https://www.otodom.pl/pl/wyniki/wynajem/pokoj/mazowieckie/warszawa/warszawa/warszawa" ++ "?" ++
            ("priceMax=" ++ jsIntToString (options.maxPrice.getD 0)))
      else
        (if 1 < pageNum then
          "https://www.otodom.pl/pl/wyniki/wynajem/pokoj/mazowieckie/warszawa/warszawa/warszawa" ++ "?" ++
            ("page=" ++ jsIntToString pageNum)
        else "https://www.otodom.pl/pl/wyniki/wynajem/pokoj/mazowieckie/warszawa/warszawa/warszawa") := by
  unfold buildOtodomUrl
  by_cases hp : truthyInt options.maxPrice <;> by_cases hn : 1 < pageNum <;>
    simp [hp, hn, joinAmp, String.append_assoc]


theorem char_not_mem_jsIntToString {c : Char} (i : Int) (h1 : c ≠ '-')
    (h2 : c ∉ decDigits) : c ∉ (jsIntToString i).toList := by
  intro hm
  rcases mem_jsIntToString i c hm with h | h
  · exact h1 h
  · exact h2 h

theorem buildOlxUrl_price_iff (options : SearchOptions) (pageNum : Int) :
    (strContains (buildOlxUrl options pageNum) "filter_float_price" = true) ↔
      truthyInt options.maxPrice = true := by
  rw [buildOlxUrl_cases]
  by_cases hp : truthyInt options.maxPrice = true
  · rw [if_pos hp]
    refine ⟨fun _ => hp, fun _ => ?_⟩
    by_cases hn : 1 < pageNum
    · rw [if_pos hn]
      have hurl : "https://www.olx.pl/nieruchomosci/stancje-pokoje/warszawa/" ++ "?" ++
          ("search%5Bfilter_float_price%3Ato%5D=" ++ jsIntToString (options.maxPrice.getD 0) ++
            ("&" ++ ("page=" ++ jsIntToString pageNum))) =
          ("https://www.olx.pl/nieruchomosci/stancje-pokoje/warszawa/" ++ "?" ++ "search%5B") ++
            "filter_float_price" ++ ("%3Ato%5D=" ++ (jsIntToString (options.maxPrice.getD 0) ++
              ("&" ++ ("page=" ++ jsIntToString pageNum)))) := by
        rw [show ("search%5Bfilter_float_price%3Ato%5D=" : String) =
          "search%5B" ++ "filter_float_price" ++ "%3Ato%5D=" from by decide]
        simp only [String.append_assoc]
      rw [hurl]
      exact strContains_middle _ _ _
    · rw [if_neg hn]
      have hurl : "https://www.olx.pl/nieruchomosci/stancje-pokoje/warszawa/" ++ "?" ++
          ("search%5Bfilter_float_price%3Ato%5D=" ++ jsIntToString (options.maxPrice.getD 0)) =
          ("https://www.olx.pl/nieruchomosci/stancje-pokoje/warszawa/" ++ "?" ++ "search%5B") ++
            "filter_float_price" ++ ("%3Ato%5D=" ++ jsIntToString (options.maxPrice.getD 0)) := by
        rw [show ("search%5Bfilter_float_price%3Ato%5D=" : String) =
          "search%5B" ++ "filter_float_price" ++ "%3Ato%5D=" from by decide]
        simp only [String.append_assoc]
      rw [hurl]
      exact strContains_middle _ _ _
  · rw [if_neg hp]
    have habs : strContains (if 1 < pageNum then
        "https://www.olx.pl/nieruchomosci/stancje-pokoje/warszawa/" ++ "?" ++
          ("page=" ++ jsIntToString pageNum)
      else "https://www.olx.pl/nieruchomosci/stancje-pokoje/warszawa/")
        "filter_float_price" = false := by
      by_cases hn : 1 < pageNum
      · rw [if_pos hn]
        refine strContains_false_of_char '_' (by decide) ?_
        intro hm
        simp only [strToList_append, List.mem_append] at hm
        rcases hm with (hm | hm) | hm | hm
        · exact absurd hm (by decide)
        · exact absurd hm (by decide)
        · exact absurd hm (by decide)
        · exact char_not_mem_jsIntToString _ (by decide) (by decide) hm
      · rw [if_neg hn]
        decide
    rw [habs]
    simp [hp]

theorem buildOlxUrl_page_iff (options : SearchOptions) (pageNum : Int) :
    (strContains (buildOlxUrl options pageNum) "page=" = true) ↔ 1 < pageNum := by
  rw [buildOlxUrl_cases]
  by_cases hn : 1 < pageNum
  · refine ⟨fun _ => hn, fun _ => ?_⟩
    by_cases hp : truthyInt options.maxPrice = true
    · rw [if_pos hp, if_pos hn]
      have hurl : "https://www.olx.pl/nieruchomosci/stancje-pokoje/warszawa/" ++ "?" ++
          ("search%5Bfilter_float_price%3Ato%5D=" ++ jsIntToString (options.maxPrice.getD 0) ++
            ("&" ++ ("page=" ++ jsIntToString pageNum))) =
          ("https://www.olx.pl/nieruchomosci/stancje-pokoje/warszawa/" ++ "?" ++
            ("search%5Bfilter_float_price%3Ato%5D=" ++ jsIntToString (options.maxPrice.getD 0) ++ "&")) ++
            "page=" ++ jsIntToString pageNum := by
        simp only [String.append_assoc]
      rw [hurl]
      exact strContains_middle _ _ _
    · rw [if_neg hp, if_pos hn]
      have hurl : "https://www.olx.pl/nieruchomosci/stancje-pokoje/warszawa/" ++ "?" ++
          ("page=" ++ jsIntToString pageNum) =
          ("https://www.olx.pl/nieruchomosci/stancje-pokoje/warszawa/" ++ "?") ++
            "page=" ++ jsIntToString pageNum := by
        simp only [String.append_assoc]
      rw [hurl]
      exact strContains_middle _ _ _
  · have habs : strContains (if truthyInt options.maxPrice = true then
        (if 1 < pageNum then
          "https://www.olx.pl/nieruchomosci/stancje-pokoje/warszawa/" ++ "?" ++
            ("search%5Bfilter_float_price%3Ato%5D=" ++ jsIntToString (options.maxPrice.getD 0) ++
              ("&" ++ ("page=" ++ jsIntToString pageNum)))
        else
          "https://www.olx.pl/nieruchomosci/stancje-pokoje/warszawa/" ++ "?" ++
            ("search%5Bfilter_float_price%3Ato%5D=" ++ jsIntToString (options.maxPrice.getD 0)))
      else
        (if 1 < pageNum then
          "https://www.olx.pl/nieruchomosci/stancje-pokoje/warszawa/" ++ "?" ++
            ("page=" ++ jsIntToString pageNum)
        else "https://www.olx.pl/nieruchomosci/stancje-pokoje/warszawa/")) "page=" = false := by
      by_cases hp : truthyInt options.maxPrice = true
      · rw [if_pos hp, if_neg hn]
        refine strContains_false_of_char 'g' (by decide) ?_
        intro hm
        simp only [strToList_append, List.mem_append] at hm
        rcases hm with (hm | hm) | hm | hm
        · exact absurd hm (by decide)
        · exact absurd hm (by decide)
        · exact absurd hm (by decide)
        · exact char_not_mem_jsIntToString _ (by decide) (by decide) hm
      · rw [if_neg hp, if_neg hn]
        decide
    rw [habs]
    simp [hn]

theorem buildOtodomUrl_price_iff (options : SearchOptions) (pageNum : Int) :
    (strContains (buildOtodomUrl options pageNum) "priceMax=" = true) ↔
      truthyInt options.maxPrice = true := by
  rw [buildOtodomUrl_cases]
  by_cases hp : truthyInt options.maxPrice = true
  · rw [if_pos hp]
    refine ⟨fun _ => hp, fun _ => ?_⟩
    by_cases hn : 1 < pageNum
    · rw [if_pos hn]
      have hurl : "https://www.otodom.pl/pl/wyniki/wynajem/pokoj/mazowieckie/warszawa/warszawa/warszawa" ++ "?" ++
          ("priceMax=" ++ jsIntToString (options.maxPrice.getD 0) ++
            ("&" ++ ("page=" ++ jsIntToString pageNum))) =
          ("https://www.otodom.pl/pl/wyniki/wynajem/pokoj/mazowieckie/warszawa/warszawa/warszawa" ++ "?") ++
            "priceMax=" ++ (jsIntToString (options.maxPrice.getD 0) ++
              ("&" ++ ("page=" ++ jsIntToString pageNum))) := by
        simp only [String.append_assoc]
      rw [hurl]
      exact strContains_middle _ _ _
    · rw [if_neg hn]
      have hurl : "https://www.otodom.pl/pl/wyniki/wynajem/pokoj/mazowieckie/warszawa/warszawa/warszawa" ++ "?" ++
          ("priceMax=" ++ jsIntToString (options.maxPrice.getD 0)) =
          ("https://www.otodom.pl/pl/wyniki/wynajem/pokoj/mazowieckie/warszawa/warszawa/warszawa" ++ "?") ++
            "priceMax=" ++ jsIntToString (options.maxPrice.getD 0) := by
        simp only [String.append_assoc]
      rw [hurl]
      exact strContains_middle _ _ _
  · rw [if_neg hp]
    have habs : strContains (if 1 < pageNum then
        "https://www.otodom.pl/pl/wyniki/wynajem/pokoj/mazowieckie/warszawa/warszawa/warszawa" ++ "?" ++
          ("page=" ++ jsIntToString pageNum)
      else "https://www.otodom.pl/pl/wyniki/wynajem/pokoj/mazowieckie/warszawa/warszawa/warszawa")
        "priceMax=" = false := by
      by_cases hn : 1 < pageNum
      · rw [if_pos hn]
        refine strContains_false_of_char 'M' (by decide) ?_
        intro hm
        simp only [strToList_append, List.mem_append] at hm
        rcases hm with (hm | hm) | hm | hm
        · exact absurd hm (by decide)
        · exact absurd hm (by decide)
        · exact absurd hm (by decide)
        · exact char_not_mem_jsIntToString _ (by decide) (by decide) hm
      · rw [if_neg hn]
        decide
    rw [habs]
    simp [hp]

theorem buildOtodomUrl_page_iff (options : SearchOptions) (pageNum : Int) :
    (strContains (buildOtodomUrl options pageNum) "page=" = true) ↔ 1 < pageNum := by
  rw [buildOtodomUrl_cases]
  by_cases hn : 1 < pageNum
  · refine ⟨fun _ => hn, fun _ => ?_⟩
    by_cases hp : truthyInt options.maxPrice = true
    · rw [if_pos hp, if_pos hn]
      have hurl : "https://www.otodom.pl/pl/wyniki/wynajem/pokoj/mazowieckie/warszawa/warszawa/warszawa" ++ "?" ++
          ("priceMax=" ++ jsIntToString (options.maxPrice.getD 0) ++
            ("&" ++ ("page=" ++ jsIntToString pageNum))) =
          ("https://www.otodom.pl/pl/wyniki/wynajem/pokoj/mazowieckie/warszawa/warszawa/warszawa" ++ "?" ++
            ("priceMax=" ++ jsIntToString (options.maxPrice.getD 0) ++ "&")) ++
            "page=" ++ jsIntToString pageNum := by
        simp only [String.append_assoc]
      rw [hurl]
      exact strContains_middle _ _ _
    · rw [if_neg hp, if_pos hn]
      have hurl : "https://www.otodom.pl/pl/wyniki/wynajem/pokoj/mazowieckie/warszawa/warszawa/warszawa" ++ "?" ++
          ("page=" ++ jsIntToString pageNum) =
          ("https://www.otodom.pl/pl/wyniki/wynajem/pokoj/mazowieckie/warszawa/warszawa/warszawa" ++ "?") ++
            "page=" ++ jsIntToString pageNum := by
        simp only [String.append_assoc]
      rw [hurl]
      exact strContains_middle _ _ _
  · have habs : strContains (if truthyInt options.maxPrice = true then
        (if 1 < pageNum then
          "https://www.otodom.pl/pl/wyniki/wynajem/pokoj/mazowieckie/warszawa/warszawa/warszawa" ++ "?" ++
            ("priceMax=" ++ jsIntToString (options.maxPrice.getD 0) ++
              ("&" ++ ("page=" ++ jsIntToString pageNum)))
        else
          "https://www.otodom.pl/pl/wyniki/wynajem/pokoj/mazowieckie/warszawa/warszawa/warszawa" ++ "?" ++
            ("priceMax=" ++ jsIntToString (options.maxPrice.getD 0)))
      else
        (if 1 < pageNum then
          "https://www.otodom.pl/pl/wyniki/wynajem/pokoj/mazowieckie/warszawa/warszawa/warszawa" ++ "?" ++
            ("page=" ++ jsIntToString pageNum)
        else "https://www.otodom.pl/pl/wyniki/wynajem/pokoj/mazowieckie/warszawa/warszawa/warszawa"))
        "page=" = false := by
      by_cases hp : truthyInt options.maxPrice = true
      · rw [if_pos hp, if_neg hn]
        refine strContains_false_of_char 'g' (by decide) ?_
        intro hm
        simp only [strToList_append, List.mem_append] at hm
        rcases hm with (hm | hm) | hm | hm
        · exact absurd hm (by decide)
        · exact absurd hm (by decide)
        · exact absurd hm (by decide)
        · exact char_not_mem_jsIntToString _ (by decide) (by decide) hm
      · rw [if_neg hp, if_neg hn]
        decide
    rw [habs]
    simp [hn]


/-! ## Filter predicate lemmas -/

theorem filterByMaxPrice_pred {options : SearchOptions} {l : List Room} {x : Room}
    (ht : truthyInt options.maxPrice = true) (hx : x ∈ filterByMaxPrice options l) :
    (match x.price with
     | none => true
     | some q => decide (q ≤ options.maxPrice.getD 0)) = true := by
  unfold filterByMaxPrice at hx
  rw [if_pos ht] at hx
  exact (List.mem_filter.mp hx).2

theorem filterByRoomType_pred {options : SearchOptions} {l : List Room} {x : Room}
    (ht : truthyStr options.roomType = true) (hx : x ∈ filterByRoomType options l) :
    roomMatchesType (getRoomTypeKeywords (options.roomType.getD "")) x = true := by
  unfold filterByRoomType at hx
  rw [if_pos ht] at hx
  exact (List.mem_filter.mp hx).2

theorem mem_filterByMaxPrice_of_null {options : SearchOptions} {l : List Room} {x : Room}
    (hx : x ∈ l) (hp : x.price = none) : x ∈ filterByMaxPrice options l := by
  unfold filterByMaxPrice
  split
  · refine List.mem_filter.mpr ⟨hx, ?_⟩
    simp [hp]
  · exact hx

theorem filterByMaxPrice_nil (options : SearchOptions) : filterByMaxPrice options [] = [] := by
  unfold filterByMaxPrice
  split <;> rfl

theorem filterByRoomType_keywords_nil {options : SearchOptions} (l : List Room)
    (ht : truthyStr options.roomType = true)
    (hk : getRoomTypeKeywords (options.roomType.getD "") = []) :
    filterByRoomType options l = [] := by
  unfold filterByRoomType
  rw [if_pos ht]
  simp [roomMatchesType, hk]

theorem getRoomTypeKeywords_eq_nil {rt : String} (h1 : rt ≠ "single") (h2 : rt ≠ "shared")
    (h3 : rt ≠ "studio") (h4 : rt ≠ "apartment") : getRoomTypeKeywords rt = [] := by
  simp [getRoomTypeKeywords, h1, h2, h3, h4]

theorem pagesToScrape_bounds {pages : Option Int} (h : ∀ p, pages = some p → 0 ≤ p) :
    1 ≤ pagesToScrape pages ∧ pagesToScrape pages ≤ 10 := by
  unfold pagesToScrape
  cases pages with
  | none =>
    show 1 ≤ min (5 : Int) 10 ∧ min (5 : Int) 10 ≤ 10
    constructor <;> decide
  | some p =>
    have hp := h p rfl
    show 1 ≤ min (if p = 0 then (5 : Int) else p) 10 ∧ min (if p = 0 then (5 : Int) else p) 10 ≤ 10
    by_cases h0 : p = 0
    · rw [if_pos h0]
      constructor <;> decide
    · rw [if_neg h0]
      constructor <;> omega

/-! ## Concrete crawl fixtures (pages a simulated renderer could return) -/

def cardA : OlxCard :=
  { hasLink := true, hrefAttr := some "/d/oferta/pokoj-a", titleText := some "Pokoj A",
    priceText := some "1500 zł", locationText := none, imgSrc := none }

def cardB : OlxCard :=
  { hasLink := true, hrefAttr := some "/d/oferta/pokoj-b", titleText := some "Kawalerka Mokotów",
    priceText := none, locationText := some "Mokotów - Dzisiaj", imgSrc := some "/img/1.jpg" }

def cardC : OlxCard :=
  { hasLink := true, hrefAttr := some "/d/oferta/pokoj-c", titleText := some "Pokoj C",
    priceText := some "2500 zł", locationText := none, imgSrc := none }

/-- The Room that `cardA` extracts to. -/
def roomA : Room :=
  { title := "Pokoj A", price := some 1500, currency := "PLN", location := "Warszawa",
    url := "https://www.olx.pl/d/oferta/pokoj-a", source := "olx", roomType := none,
    area := none, imageUrl := none }

/-- The Room that `cardB` extracts to (no price, relative thumbnail src). -/
def roomB : Room :=
  { title := "Kawalerka Mokotów", price := none, currency := "PLN", location := "Mokotów",
    url := "https://www.olx.pl/d/oferta/pokoj-b", source := "olx", roomType := none,
    area := none, imageUrl := some "/img/1.jpg" }

/-- The Room that `cardC` extracts to. -/
def roomC : Room :=
  { title := "Pokoj C", price := some 2500, currency := "PLN", location := "Warszawa",
    url := "https://www.olx.pl/d/oferta/pokoj-c", source := "olx", roomType := none,
    area := none, imageUrl := none }

/-- A one-page OLX site: prices 1500, absent, 2500; no next page. -/
def olxFetch : Int → OlxPageData := fun n =>
  if n = 1 then { cards := [cardA, cardB, cardC], hasNext := false }
  else { cards := [], hasNext := false }

def cardX : OtodomCard :=
  { hasLink := true, hrefAttr := some "/pl/oferta/pokoj-x", titleText := some "Pokoj X",
    areaText := none, containerText := some "Pokoj X 1800 zł Warszawa, Wola", imgSrc := none }

/-- The Room that `cardX` extracts to. -/
def roomX : Room :=
  { title := "Pokoj X", price := some 1800, currency := "PLN", location := "Warszawa, Wola",
    url := "https://www.otodom.pl/pl/oferta/pokoj-x", source := "otodom", roomType := none,
    area := none, imageUrl := none }

/-- A one-page Otodom site. -/
def otoFetch : Int → OtodomPageData := fun n =>
  if n = 1 then { cards := [cardX], hasNext := false }
  else { cards := [], hasNext := false }

/-- An adversarial OLX site whose next-page detector always answers true. -/
def olxFetchLoop : Int → OlxPageData := fun _ => { cards := [cardA], hasNext := true }

/-- An adversarial Otodom site: always a next page, never an empty page. -/
def otoFetchLoop : Int → OtodomPageData := fun _ => { cards := [cardX], hasNext := true }

/-- Two distinct rooms with absent price, for the sort-stability analysis. -/
def nullA : Room :=
  { title := "Null A", price := none, currency := "PLN", location := "Warszawa",
    url := "https://www.olx.pl/d/oferta/null-a", source := "olx", roomType := none,
    area := none, imageUrl := none }

def nullB : Room :=
  { title := "Null B", price := none, currency := "PLN", location := "Warszawa",
    url := "https://www.olx.pl/d/oferta/null-b", source := "olx", roomType := none,
    area := none, imageUrl := none }

def optsPlain : SearchOptions := { pages := some 1 }

def optsPrice2000 : SearchOptions := { maxPrice := some 2000, pages := some 1 }

def optsPrice0 : SearchOptions := { maxPrice := some 0, pages := some 1 }

def optsStudio : SearchOptions := { roomType := some "studio", pages := some 1 }

def optsGarage : SearchOptions := { roomType := some "garage", pages := some 1 }

def optsEmptyRT : SearchOptions := { roomType := some "", pages := some 1 }

def optsNeg : SearchOptions := { pages := some (-3) }

def optsPages3 : SearchOptions := { pages := some 3 }


/-! ## Claim theorems -/

/-- C1 (amended): for every nonzero value P supplied as `SearchOptions.maxPrice`, every
Listing returned by a source crawl (`scrapeOlx` or `scrapeOtodom`) has absent price or
price ≤ P, and a listing with absent price is never excluded by the price-filter stage.
(The original claim fails for the supplied value P = 0, which JS truthiness treats as
"no filter"; see the counterexample.) -/
theorem c1_price_filter_amended (fetchO : Int → OlxPageData) (fetchT : Int → OtodomPageData)
    (options : SearchOptions) (P : Int) (hP : options.maxPrice = some P) (h0 : P ≠ 0) :
    (∀ r ∈ scrapeOlxModel fetchO options,
        r.price = none ∨ ∃ q : Int, r.price = some q ∧ q ≤ P) ∧
    (∀ r ∈ scrapeOtodomModel fetchT options,
        r.price = none ∨ ∃ q : Int, r.price = some q ∧ q ≤ P) ∧
    (∀ (l : List Room) (r : Room), r ∈ l → r.price = none →
        r ∈ filterByMaxPrice options l) := by
  have ht : truthyInt options.maxPrice = true := by simp [truthyInt, hP, h0]
  have hbound : ∀ x : Room,
      (match x.price with
       | none => true
       | some q => decide (q ≤ options.maxPrice.getD 0)) = true →
      x.price = none ∨ ∃ q : Int, x.price = some q ∧ q ≤ P := by
    intro x hm
    cases hp : x.price with
    | none => exact Or.inl rfl
    | some q =>
      rw [hp] at hm
      refine Or.inr ⟨q, rfl, ?_⟩
      have hq : decide (q ≤ options.maxPrice.getD 0) = true := hm
      have hq2 := of_decide_eq_true hq
      rw [hP] at hq2
      simpa using hq2
  refine ⟨?_, ?_, ?_⟩
  · intro r hr
    exact hbound r (filterByMaxPrice_pred ht hr)
  · intro r hr
    exact hbound r (filterByMaxPrice_pred ht hr)
  · intro l r hl hp
    exact mem_filterByMaxPrice_of_null hl hp

/-- C1 witness: with maxPrice = 2000 and the concrete one-page OLX site, the returned
room priced 1500 satisfies the bound. -/
theorem c1_price_filter_witness :
    roomA.price = none ∨ ∃ q : Int, roomA.price = some q ∧ q ≤ 2000 :=
  (c1_price_filter_amended olxFetch otoFetch optsPrice2000 2000 rfl (by decide)).1
    roomA (by decide)

/-- C1 counterexample: with the supplied value maxPrice = 0 (falsy in JS) the price
filter is skipped, so a room priced 2500 > 0 is returned and the claim as stated fails. -/
theorem c1_price_filter_counterexample :
    optsPrice0.maxPrice = some 0 ∧
    ¬ (∀ r ∈ scrapeOlxModel olxFetch optsPrice0,
        r.price = none ∨ ∃ q : Int, r.price = some q ∧ q ≤ 0) := by
  refine ⟨rfl, fun hall => ?_⟩
  rcases hall roomC (by decide) with h | ⟨q, hq, hle⟩
  · exact absurd h (by decide)
  · have hq2 : (2500 : Int) = q := by simpa [roomC] using hq
    omega

/-- C2: the aggregation sort of `main` yields a permutation of its input that is
non-decreasing in price among listings with a present price, places every
`price === null` listing after all priced listings, and is stable: listings with
equal prices — including two listings both with `price === null` — retain their
relative input order (the subsequence at each fixed present price and the
subsequence of null-priced listings are preserved), so re-sorting an
already-sorted sequence yields the same order. -/
theorem c2_sort_stable (rooms : List Room) :
    (jsSortRooms rooms).Perm rooms ∧
    (jsSortRooms rooms).Pairwise ROrd ∧
    (∀ c : Int, (jsSortRooms rooms).filter (priceEq c) = rooms.filter (priceEq c)) ∧
    (jsSortRooms rooms).filter priceNone = rooms.filter priceNone ∧
    (rooms.Pairwise ROrd → jsSortRooms rooms = rooms) :=
  ⟨perm_jsSortRooms rooms, pairwise_jsSortRooms rooms,
   fun c => filter_jsSortRooms c rooms, filterNull_jsSortRooms rooms,
   fun hp => jsSortRooms_of_pairwise rooms hp⟩

/-- C2 witness: the already-sorted sequence [priced 1500, null, null] re-sorts to
itself; in particular the two null-priced rooms retain their relative order. -/
theorem c2_sort_stable_witness :
    jsSortRooms [roomA, nullA, nullB] = [roomA, nullA, nullB] :=
  (c2_sort_stable [roomA, nullA, nullB]).2.2.2.2 (by
    have h1 : ROrd roomA nullA := by
      constructor
      · intro h
        simp [roomA] at h
      · intro pa pb ha hb
        simp [nullA] at hb
    have h2 : ROrd roomA nullB := by
      constructor
      · intro h
        simp [roomA] at h
      · intro pa pb ha hb
        simp [nullB] at hb
    have hO : ROrd nullA nullB := by
      constructor
      · intro _
        rfl
      · intro pa pb ha hb
        simp [nullA] at ha
    refine List.Pairwise.cons ?_ (List.Pairwise.cons ?_ (by simp))
    · intro y hy
      rcases List.mem_cons.mp hy with rfl | hy
      · exact h1
      · rcases List.mem_singleton.mp hy with rfl
        exact h2
    · intro y hy
      rcases List.mem_singleton.mp hy with rfl
      exact hO)

/-- C3 (amended): whenever `pages` is absent, zero, or non-negative, the resolved page
budget `Math.min(options.pages || 5, MAX_PAGES)` lies in [1,10] and each adapter's page
loop runs at least 1 and at most 10 iterations.  (The original claim also covered
negative `pages`, but a negative value is not clamped from below: the budget stays
negative and the loop runs zero iterations; see the counterexample.) -/
theorem c3_page_budget_amended (fetchO : Int → OlxPageData) (fetchT : Int → OtodomPageData)
    (options : SearchOptions) (h : ∀ p, options.pages = some p → 0 ≤ p) :
    1 ≤ pagesToScrape options.pages ∧ pagesToScrape options.pages ≤ 10 ∧
    1 ≤ (olxCrawlRun fetchO options).fetches ∧ (olxCrawlRun fetchO options).fetches ≤ 10 ∧
    1 ≤ (otodomCrawlRun fetchT options).fetches ∧
      (otodomCrawlRun fetchT options).fetches ≤ 10 := by
  obtain ⟨h1, h2⟩ := pagesToScrape_bounds h
  have hk1 : 1 ≤ (pagesToScrape options.pages).toNat := by omega
  have hk2 : (pagesToScrape options.pages).toNat ≤ 10 := by omega
  refine ⟨h1, h2, ?_, ?_, ?_, ?_⟩
  · have h3 := olxCrawlLoop_fetches_ge fetchO (pagesToScrape options.pages).toNat 1 [] 0 [] hk1
    unfold olxCrawlRun
    omega
  · have h3 := olxCrawlLoop_fetches_le fetchO (pagesToScrape options.pages).toNat 1 [] 0 []
    unfold olxCrawlRun
    omega
  · have h3 := otodomCrawlLoop_fetches_ge fetchT (pagesToScrape options.pages).toNat 1 [] 0 [] hk1
    unfold otodomCrawlRun
    omega
  · have h3 := otodomCrawlLoop_fetches_le fetchT (pagesToScrape options.pages).toNat 1 [] 0 []
    unfold otodomCrawlRun
    omega

/-- C3 witness: with `pages = 1` the budget is 1 ∈ [1,10] and both concrete crawls run
exactly one iteration. -/
theorem c3_page_budget_witness :
    1 ≤ pagesToScrape optsPlain.pages ∧ pagesToScrape optsPlain.pages ≤ 10 ∧
    1 ≤ (olxCrawlRun olxFetch optsPlain).fetches ∧
      (olxCrawlRun olxFetch optsPlain).fetches ≤ 10 ∧
    1 ≤ (otodomCrawlRun otoFetch optsPlain).fetches ∧
      (otodomCrawlRun otoFetch optsPlain).fetches ≤ 10 :=
  c3_page_budget_amended olxFetch otoFetch optsPlain
    (by intro p hp; simp [optsPlain] at hp; omega)

/-- C3 counterexample: for `pages = -3` the resolved budget is -3 ∉ [1,10] and both page
loops run zero iterations, not at least one. -/
theorem c3_page_budget_counterexample :
    optsNeg.pages = some (-3) ∧ pagesToScrape optsNeg.pages = -3 ∧
    (olxCrawlRun olxFetch optsNeg).fetches = 0 ∧
    (otodomCrawlRun otoFetch optsNeg).fetches = 0 := by
  decide

/-- C4: within a single crawl run of either adapter no two returned Listings share a
url, and the accumulated sequence is exactly the first-occurrence deduplication (in
first-seen page order) of the concatenated per-page extraction results — a record whose
url was already accumulated is dropped and neither duplicates nor moves the existing
entry. -/
theorem c4_dedup_first_seen (fetchO : Int → OlxPageData) (fetchT : Int → OtodomPageData)
    (options : SearchOptions) :
    ((scrapeOlxModel fetchO options).map Room.url).Nodup ∧
    ((scrapeOtodomModel fetchT options).map Room.url).Nodup ∧
    (olxCrawlRun fetchO options).rooms = dedupByUrl [] (olxCrawlRun fetchO options).raw ∧
    (otodomCrawlRun fetchT options).rooms =
      dedupByUrl [] (otodomCrawlRun fetchT options).raw := by
  have ho : (olxCrawlRun fetchO options).rooms =
      dedupByUrl [] (olxCrawlRun fetchO options).raw := by
    unfold olxCrawlRun
    exact olxCrawlLoop_dedup fetchO _ 1 [] 0 [] rfl
  have hT : (otodomCrawlRun fetchT options).rooms =
      dedupByUrl [] (otodomCrawlRun fetchT options).raw := by
    unfold otodomCrawlRun
    exact otodomCrawlLoop_dedup fetchT _ 1 [] 0 [] rfl
  have hndo : (((olxCrawlRun fetchO options).rooms).map Room.url).Nodup := by
    rw [ho]
    exact (dedupByUrl_nodup _ []).1
  have hndt : (((otodomCrawlRun fetchT options).rooms).map Room.url).Nodup := by
    rw [hT]
    exact (dedupByUrl_nodup _ []).1
  refine ⟨?_, ?_, ho, hT⟩
  · exact List.Nodup.sublist
      (List.Sublist.map Room.url (applyFilters_sublist options _)) hndo
  · exact List.Nodup.sublist
      (List.Sublist.map Room.url (applyFilters_sublist options _)) hndt

/-- C5: for every resolved page budget K, each adapter's crawl performs at most K page
fetches, regardless of what `hasNextPage` returns on any page. -/
theorem c5_budget_bound (fetchO : Int → OlxPageData) (fetchT : Int → OtodomPageData)
    (options : SearchOptions) (K : Nat)
    (hK : pagesToScrape options.pages = (K : Int)) :
    (olxCrawlRun fetchO options).fetches ≤ K ∧
    (otodomCrawlRun fetchT options).fetches ≤ K := by
  have hkn : (pagesToScrape options.pages).toNat = K := by omega
  constructor
  · have h1 := olxCrawlLoop_fetches_le fetchO (pagesToScrape options.pages).toNat 1 [] 0 []
    unfold olxCrawlRun
    omega
  · have h1 := otodomCrawlLoop_fetches_le fetchT (pagesToScrape options.pages).toNat 1 [] 0 []
    unfold otodomCrawlRun
    omega

/-- C5 witness: against sites whose next-page detector always answers true, a budget of
3 yields at most 3 fetches per source. -/
theorem c5_budget_bound_witness :
    (olxCrawlRun olxFetchLoop optsPages3).fetches ≤ 3 ∧
    (otodomCrawlRun otoFetchLoop optsPages3).fetches ≤ 3 :=
  c5_budget_bound olxFetchLoop otoFetchLoop optsPages3 3 (by decide)

/-- C6 (amended): for every SearchOptions and page number, each adapter's URL contains
the maxPrice query filter exactly when `maxPrice` is present and nonzero (JS
truthiness), and contains the page-number parameter exactly when `pageNum > 1`; page 1
is the bare listing URL.  (The original claim said "exactly when maxPrice is present",
which fails for the present value 0; see the counterexample.)  Construction is a pure
function of (options, pageNum), hence deterministic. -/
theorem c6_url_params_amended (options : SearchOptions) (pageNum : Int) :
    ((strContains (buildOlxUrl options pageNum) "filter_float_price" = true) ↔
      truthyInt options.maxPrice = true) ∧
    ((strContains (buildOlxUrl options pageNum) "page=" = true) ↔ 1 < pageNum) ∧
    ((strContains (buildOtodomUrl options pageNum) "priceMax=" = true) ↔
      truthyInt options.maxPrice = true) ∧
    ((strContains (buildOtodomUrl options pageNum) "page=" = true) ↔ 1 < pageNum) :=
  ⟨buildOlxUrl_price_iff options pageNum, buildOlxUrl_page_iff options pageNum,
   buildOtodomUrl_price_iff options pageNum, buildOtodomUrl_page_iff options pageNum⟩

/-- C6 counterexample: `maxPrice = 0` is present in the options yet neither adapter's
page-1 URL carries the price filter parameter. -/
theorem c6_url_params_counterexample :
    optsPrice0.maxPrice = some 0 ∧
    strContains (buildOlxUrl optsPrice0 1) "filter_float_price" = false ∧
    strContains (buildOtodomUrl optsPrice0 1) "priceMax=" = false := by
  decide

/-- C7: every Listing emitted by either adapter has a non-empty title and a non-empty
location, and when extraction yields no title/location text the source-specific default
strings are substituted. -/
theorem c7_nonempty_fields (fetchO : Int → OlxPageData) (fetchT : Int → OtodomPageData)
    (options : SearchOptions) :
    (∀ r ∈ scrapeOlxModel fetchO options, r.title ≠ "" ∧ r.location ≠ "") ∧
    (∀ r ∈ scrapeOtodomModel fetchT options, r.title ≠ "" ∧ r.location ≠ "") ∧
    olxTitleOf none = "Room listing" ∧ olxLocationOf none = "Warszawa" ∧
    otodomTitleOf none = "Room in Warsaw" := by
  refine ⟨?_, ?_, rfl, rfl, rfl⟩
  · intro r hr
    obtain ⟨n, c, hc, heq⟩ := mem_scrapeOlxModel hr
    rw [olxCardRoom_inv heq]
    exact ⟨olxTitleOf_ne_empty _, olxLocationOf_ne_empty _⟩
  · intro r hr
    obtain ⟨n, c, hc, heq⟩ := mem_scrapeOtodomModel hr
    rw [otodomCardRoom_inv heq]
    exact ⟨otodomTitleOf_ne_empty _, otodomLocationOf_ne_empty _⟩

/-- C7 witness: the concrete returned room has non-empty title and location. -/
theorem c7_nonempty_fields_witness :
    roomA.title ≠ "" ∧ roomA.location ≠ "" :=
  (c7_nonempty_fields olxFetch otoFetch optsPlain).1 roomA (by decide)

/-- C8: for every roomType T in the closed set supplied in the options, every Listing
returned by either source crawl has a title whose lower-cased form contains at least
one keyword of T's keyword set. -/
theorem c8_roomtype_filter (fetchO : Int → OlxPageData) (fetchT : Int → OtodomPageData)
    (options : SearchOptions) (T : String) (hT : options.roomType = some T)
    (hset : T = "single" ∨ T = "shared" ∨ T = "studio" ∨ T = "apartment") :
    (∀ r ∈ scrapeOlxModel fetchO options,
        roomMatchesType (getRoomTypeKeywords T) r = true) ∧
    (∀ r ∈ scrapeOtodomModel fetchT options,
        roomMatchesType (getRoomTypeKeywords T) r = true) := by
  have hne : T ≠ "" := by rcases hset with rfl | rfl | rfl | rfl <;> decide
  have ht : truthyStr options.roomType = true := by simp [truthyStr, hT, hne]
  have hg : options.roomType.getD "" = T := by simp [hT]
  constructor
  · intro r hr
    have hr2 : r ∈ filterByRoomType options (olxCrawlRun fetchO options).rooms :=
      (filterByMaxPrice_sublist options _).subset hr
    have hpred := filterByRoomType_pred ht hr2
    rwa [hg] at hpred
  · intro r hr
    have hr2 : r ∈ filterByRoomType options (otodomCrawlRun fetchT options).rooms :=
      (filterByMaxPrice_sublist options _).subset hr
    have hpred := filterByRoomType_pred ht hr2
    rwa [hg] at hpred

/-- C8 witness: with roomType "studio", the returned room titled "Kawalerka Mokotów"
matches the keyword "kawalerka" after lower-casing. -/
theorem c8_roomtype_filter_witness :
    roomMatchesType (getRoomTypeKeywords "studio") roomB = true :=
  (c8_roomtype_filter olxFetch otoFetch optsStudio "studio" rfl
    (Or.inr (Or.inr (Or.inl rfl)))).1 roomB (by decide)

/-- C9 (amended): every emitted Listing's `imageUrl` is either absent or the extracted
`src` attribute stored verbatim (and never the empty string); no resolution against the
source's base origin is performed on thumbnails.  (The original claim — that a relative
extracted src is resolved to an absolute URL — fails; see the counterexample.) -/
theorem c9_imageurl_amended (fetchO : Int → OlxPageData) (fetchT : Int → OtodomPageData)
    (options : SearchOptions) :
    (∀ r ∈ scrapeOlxModel fetchO options, r.imageUrl = none ∨
      ∃ (n : Int) (c : OlxCard), c ∈ (fetchO n).cards ∧ c.imgSrc = r.imageUrl ∧
        r.imageUrl ≠ some "") ∧
    (∀ r ∈ scrapeOtodomModel fetchT options, r.imageUrl = none ∨
      ∃ (n : Int) (c : OtodomCard), c ∈ (fetchT n).cards ∧ c.imgSrc = r.imageUrl ∧
        r.imageUrl ≠ some "") := by
  constructor
  · intro r hr
    obtain ⟨n, c, hc, heq⟩ := mem_scrapeOlxModel hr
    have himg : r.imageUrl = jsOrUndefined c.imgSrc := by rw [olxCardRoom_inv heq]
    cases hsrc : c.imgSrc with
    | none =>
      left
      rw [himg, hsrc]
      rfl
    | some s =>
      by_cases hs : s = ""
      · left
        rw [himg, hsrc, hs]
        rfl
      · right
        refine ⟨n, c, hc, ?_, ?_⟩
        · rw [himg, hsrc]
          simp [jsOrUndefined, hs]
        · rw [himg, hsrc]
          simp [jsOrUndefined, hs]
  · intro r hr
    obtain ⟨n, c, hc, heq⟩ := mem_scrapeOtodomModel hr
    have himg : r.imageUrl = jsOrUndefined c.imgSrc := by rw [otodomCardRoom_inv heq]
    cases hsrc : c.imgSrc with
    | none =>
      left
      rw [himg, hsrc]
      rfl
    | some s =>
      by_cases hs : s = ""
      · left
        rw [himg, hsrc, hs]
        rfl
      · right
        refine ⟨n, c, hc, ?_, ?_⟩
        · rw [himg, hsrc]
          simp [jsOrUndefined, hs]
        · rw [himg, hsrc]
          simp [jsOrUndefined, hs]

/-- C9 witness: the returned room with a thumbnail carries the card's src verbatim. -/
theorem c9_imageurl_witness :
    roomB.imageUrl = none ∨
    ∃ (n : Int) (c : OlxCard), c ∈ (olxFetch n).cards ∧ c.imgSrc = roomB.imageUrl ∧
      roomB.imageUrl ≠ some "" :=
  (c9_imageurl_amended olxFetch otoFetch optsPlain).1 roomB (by decide)

/-- C9 counterexample: a relative extracted src "/img/1.jpg" is emitted unchanged — the
stored imageUrl is not an absolute URL, contradicting the claim that relative
thumbnails are resolved against the base origin. -/
theorem c9_imageurl_counterexample :
    roomB ∈ scrapeOlxModel olxFetch optsPlain ∧ roomB.imageUrl = some "/img/1.jpg" ∧
    strStartsWith "/img/1.jpg" "http" = false := by
  decide

/-- C10 (amended): for every NON-EMPTY roomType string outside the closed set {single,
shared, studio, apartment}, `getRoomTypeKeywords` returns the empty list and both
scrapers return the empty sequence.  (The original claim also covered the outside
string "", which JS truthiness treats as "no filter", so everything is returned; see
the counterexample.) -/
theorem c10_unknown_roomtype_amended (fetchO : Int → OlxPageData)
    (fetchT : Int → OtodomPageData) (options : SearchOptions) (rt : String)
    (hrt : options.roomType = some rt) (hne : rt ≠ "") (h1 : rt ≠ "single")
    (h2 : rt ≠ "shared") (h3 : rt ≠ "studio") (h4 : rt ≠ "apartment") :
    getRoomTypeKeywords rt = [] ∧
    scrapeOlxModel fetchO options = [] ∧ scrapeOtodomModel fetchT options = [] := by
  have hk0 : getRoomTypeKeywords rt = [] := getRoomTypeKeywords_eq_nil h1 h2 h3 h4
  have ht : truthyStr options.roomType = true := by simp [truthyStr, hrt, hne]
  have hk : getRoomTypeKeywords (options.roomType.getD "") = [] := by
    rw [show options.roomType.getD "" = rt from by simp [hrt]]
    exact hk0
  refine ⟨hk0, ?_, ?_⟩
  · show filterByMaxPrice options
      (filterByRoomType options (olxCrawlRun fetchO options).rooms) = []
    rw [filterByRoomType_keywords_nil _ ht hk, filterByMaxPrice_nil]
  · show filterByMaxPrice options
      (filterByRoomType options (otodomCrawlRun fetchT options).rooms) = []
    rw [filterByRoomType_keywords_nil _ ht hk, filterByMaxPrice_nil]

/-- C10 witness: roomType "garage" (non-empty, outside the closed set) yields an empty
result from both concrete crawls. -/
theorem c10_unknown_roomtype_witness :
    getRoomTypeKeywords "garage" = [] ∧
    scrapeOlxModel olxFetch optsGarage = [] ∧ scrapeOtodomModel otoFetch optsGarage = [] :=
  c10_unknown_roomtype_amended olxFetch otoFetch optsGarage "garage" rfl
    (by decide) (by decide) (by decide) (by decide) (by decide)

/-- C10 counterexample: the empty string is outside the closed set, yet with
roomType = "" the filter is skipped (JS falsiness) and the OLX scraper returns a
non-empty sequence. -/
theorem c10_unknown_roomtype_counterexample :
    optsEmptyRT.roomType = some "" ∧
    ¬ ("" = "single" ∨ "" = "shared" ∨ "" = "studio" ∨ "" = "apartment") ∧
    scrapeOlxModel olxFetch optsEmptyRT ≠ [] := by
  decide

end RoomScraper
